import Mathlib

/-! # FLUIDOS node: REAR gateway handlers and Discovery reconciler

A shallow embedding of

* `pkg/rear-controller/gateway/provider.go`
  (`getFlavours`, `getFlavoursBySelector`, `reserveFlavour`, `purchaseFlavour`),
* `pkg/rear-controller/discovery-manager/discovery_controller.go`
  (`DiscoveryReconciler.Reconcile`),

followed by the properties established about them.

Handlers are pure functions from the state they read (the gateway's
transaction map, the objects held by the cluster store) and the outcome of
every external call they make (clock, identifier minting, store failures) to
the state they leave and the HTTP response they write.
-/

namespace Fluidos

/-! ## Data model -/

/-- A `resource.Quantity`, represented by its exact value in the smallest unit.
`Cmp` only depends on that value, and it may be zero or negative. -/
abbrev Quantity := Int

/-- The result of `Quantity.Cmp`: `-1`, `0` or `1`. -/
def Quantity.Cmp (q y : Quantity) : Int :=
  if q < y then -1 else if q = y then 0 else 1

/-- The value of `resource.MustParse("0")`. -/
def Quantity.zero : Quantity := 0

/-- The fields of a `Flavour` read by the handlers: its name (which is its
flavour ID), `Spec.Characteristics.Cpu` and `Spec.OptionalFields.Availability`.
The `default` value is Go's zero value of the struct. -/
structure Flavour where
  Name : String
  Cpu : Quantity
  Availability : Bool
deriving DecidableEq, Repr, Inhabited

/-! ## The availability-filtering loop

```go
for i, f := range flavours {
    if !f.Spec.OptionalFields.Availability {
        flavours = append(flavours[:i], flavours[i+1:]...)
    }
}
```

`range` evaluates its operand once: the loop runs over the indices of the
original slice header and reads each `f` from the shared backing array at the
moment of the iteration. The `append` has enough capacity, so it writes into
that same backing array; the variable `flavours` only gets a shorter length.
-/

/-- The variable `flavours` during the loop: the backing array (whose length is
the length of the slice the loop started with) and the current `len(flavours)`. -/
structure Slice where
  arr : List Flavour
  len : Nat
deriving DecidableEq, Repr

/-- The elements of the slice: the first `len` cells of the backing array. -/
def Slice.toList (s : Slice) : List Flavour := s.arr.take s.len

/-- The statement `flavours = append(flavours[:i], flavours[i+1:]...)`.
`flavours[i+1:]` panics when `i+1 > len(flavours)` (result `none`). Otherwise
the cells `i+1 .. len-1` are copied down to `i .. len-2`, every other cell of
the backing array keeps its content, and the length drops by one. -/
def Slice.removeAt (s : Slice) (i : Nat) : Option Slice :=
  if i + 1 ≤ s.len then
    some { arr := s.arr.take i ++ (s.arr.drop (i + 1)).take (s.len - (i + 1))
                    ++ s.arr.drop (s.len - 1)
           len := s.len - 1 }
  else
    none

/-- One iteration of the loop, at index `i`. -/
def filterStep (i : Nat) (s : Slice) : Option Slice :=
  match s.arr[i]? with
  | none => none
  | some f => if !f.Availability then s.removeAt i else some s

/-- The iterations `i, i+1, ..., i+k-1` of the loop. -/
def filterFrom : Nat → Nat → Slice → Option Slice
  | 0, _, s => some s
  | k + 1, i, s => (filterStep i s).bind (filterFrom k (i + 1))

/-- The whole loop on `flavours`: `none` when it panics, otherwise the value of
`flavours` after it. -/
def filterAvailable (flavours : List Flavour) : Option (List Flavour) :=
  (filterFrom flavours.length 0 { arr := flavours, len := flavours.length }).map Slice.toList

/-! ## The max-CPU selection loop

```go
max := resource.MustParse("0")
var selected nodecorev1alpha1.Flavour
for _, f := range flavours {
    if f.Spec.Characteristics.Cpu.Cmp(max) == 1 {
        max = f.Spec.Characteristics.Cpu
        selected = f
    }
}
```
-/

/-- The loop from a given state `(max, selected)`. -/
def selectLoop : List Flavour → Quantity × Flavour → Quantity × Flavour
  | [], st => st
  | f :: fs, (max, selected) =>
    if f.Cpu.Cmp max = 1 then selectLoop fs (f.Cpu, f) else selectLoop fs (max, selected)

/-- The value of `selected` after the loop. -/
def selectMaxCpu (flavours : List Flavour) : Flavour :=
  (selectLoop flavours (Quantity.zero, default)).2

/-! ## Objects of the reserve and purchase protocol -/

/-- The node identity of a buyer. The handlers read `NodeID`; `Other` stands for
the remaining fields, which they only copy. -/
structure NodeIdentity where
  NodeID : String
  Other : String
deriving DecidableEq, Repr, Inhabited

/-- Modelled from the spec: `models.Transaction` is declared outside the files
at hand. A Transaction is "a unique transaction ID, the flavour ID, the buyer's
node identity, a start timestamp". Instants are natural numbers. The `default`
value is Go's zero value. -/
structure Transaction where
  TransactionID : String
  FlavourID : String
  Buyer : NodeIdentity
  StartTime : Nat
deriving DecidableEq, Repr, Inhabited

/-- The body of a reserve request, as far as `reserveFlavour` reads it
(`request.FlavourID`, `request.Buyer`). -/
structure ReserveRequest where
  FlavourID : String
  Buyer : NodeIdentity
deriving DecidableEq, Repr, Inhabited

/-- The body of a purchase request, as far as `purchaseFlavour` reads it. -/
structure PurchaseRequest where
  TransactionID : String
deriving DecidableEq, Repr, Inhabited

/-- Modelled from the spec: the `Contract` type is declared outside the files at
hand. A Contract holds "the sold Flavour snapshot, the transaction ID,
buyer/seller identities, and peering credentials", under an identity (`Name`)
of its own. -/
structure Contract where
  Name : String
  Flavour : Flavour
  TransactionID : String
  Buyer : NodeIdentity
  SellerCredentials : String
deriving DecidableEq, Repr, Inhabited

/-! ## HTTP responses -/

/-- What a handler writes: the text of an `http.Error`, or the object handed to
`encodeResponse`. `parseutil.ParseFlavour`, `parseutil.ParseContract` and
`resourceforge.ForgeResponsePurchaseObj` only reshape the object they are
given, so the object itself stands for the encoded body. -/
inductive Body where
  | error (msg : String)
  | flavour (f : Flavour)
  | transaction (t : Transaction)
  | purchase (c : Contract)
deriving DecidableEq, Repr

/-- An HTTP response: status code and body. -/
structure Response where
  status : Nat
  body : Body
deriving DecidableEq, Repr

def StatusOK : Nat := 200
def StatusBadRequest : Nat := 400
def StatusNotFound : Nat := 404
def StatusRequestTimeout : Nat := 408
def StatusConflict : Nat := 409
def StatusInternalServerError : Nat := 500

/-- The call `http.Error(w, msg, code)`. -/
def httpError (msg : String) (code : Nat) : Response := { status := code, body := .error msg }

/-- Modelled from the spec: `encodeResponse` is declared outside the files at
hand; it answers `200` with the JSON encoding of its argument. -/
def encodeResponse (data : Body) : Response := { status := StatusOK, body := data }

/-! ## `getFlavours` and `getFlavoursBySelector` -/

/-- The handler `getFlavours`. `stored` is the result of
`services.GetAllFlavours(g.client)`. The result is `none` when the handler
panics and writes nothing. -/
def getFlavours (stored : Except String (List Flavour)) : Option Response :=
  match stored with
  | .error _ => some (httpError "Error getting all the Flavour CRs" StatusInternalServerError)
  | .ok flavours =>
    -- Filtering only the available flavours
    match filterAvailable flavours with
    | none => none
    | some flavours =>
      if flavours.length = 0 then
        some (httpError "No Flavours found" StatusNotFound)
      else
        -- Select the flavour with the max CPU
        let selected := selectMaxCpu flavours
        some (encodeResponse (.flavour selected))

/-- The collaborators of `getFlavoursBySelector` that are declared outside the
files at hand, over a selector type `σ`: `buildSelector`, `common.CheckSelector`
and `common.FilterFlavoursBySelector`. -/
structure SelectorOps (σ : Type) where
  buildSelector : String → Except String σ
  CheckSelector : σ → Option String
  FilterFlavoursBySelector : List Flavour → σ → Except String (List Flavour)

/-- The handler `getFlavoursBySelector`. `body` is the result of reading the
request body. -/
def getFlavoursBySelector {σ : Type} (ops : SelectorOps σ) (body : Except String String)
    (stored : Except String (List Flavour)) : Option Response :=
  match body with
  | .error e => some (httpError e StatusInternalServerError)
  | .ok body =>
    match ops.buildSelector body with
    | .error e => some (httpError e StatusBadRequest)
    | .ok selector =>
      match stored with
      | .error _ => some (httpError "Error getting all the Flavour CRs" StatusInternalServerError)
      | .ok flavours =>
        match filterAvailable flavours with
        | none => none
        | some flavours =>
          if flavours.length = 0 then
            some (httpError "No Flavours found" StatusNotFound)
          else
            match ops.CheckSelector selector with
            | some e => some (httpError e StatusBadRequest)
            | none =>
              match ops.FilterFlavoursBySelector flavours selector with
              | .error _ =>
                some (httpError "Error getting the Flavours by selector" StatusInternalServerError)
              | .ok flavoursSelected =>
                if flavoursSelected.length = 0 then
                  some (httpError "No Flavours found" StatusNotFound)
                else
                  let selected := selectMaxCpu flavoursSelected
                  some (encodeResponse (.flavour selected))

/-! ## The gateway: transaction map and cluster store -/

/-- The objects of the cluster store that the gateway reads and writes through
`g.client`. -/
structure Cluster where
  Flavours : List Flavour
  Contracts : List Contract
deriving DecidableEq, Repr

/-- The gateway `g`: its transactions map, listed entry by entry (the key of an
entry is its `TransactionID`), and the store behind `g.client`. -/
structure Gateway where
  Transactions : List Transaction
  client : Cluster
deriving DecidableEq, Repr

/-- The outcome of every external call of one request. -/
structure Env where
  /-- The instant returned by `tools.GetTimeNow()`. -/
  now : Nat
  /-- The flag `flags.EXPIRATION_TRANSACTION`. -/
  EXPIRATION_TRANSACTION : Nat
  /-- The result of `namings.ForgeTransactionID()`, `none` for an error. -/
  newTransactionID : Option String
  /-- Whether the store fails the lookup made by `services.GetFlavourByID`. -/
  getFlavourFails : Bool
  /-- Whether `g.client.List` fails with an error other than NotFound. -/
  listFails : Bool
  /-- Whether the store reports an empty list as a NotFound error. -/
  emptyListIsNotFound : Bool
  /-- The result of `GetLiqoCredentials`, `none` for an error. -/
  liqoCredentials : Option String
  /-- The fresh identity given to a forged Contract. -/
  contractName : String
  /-- The error of `g.client.Create`, `none` for success. -/
  createError : Option String
deriving DecidableEq, Repr

/-- Modelled from the spec: `SearchTransaction` is declared outside the files at
hand. "Look up an existing live Transaction keyed by (buyerIdentity,
flavourID)". -/
def Gateway.SearchTransaction (g : Gateway) (buyerID flavourID : String) : Option Transaction :=
  g.Transactions.find? (fun t => t.Buyer.NodeID == buyerID && t.FlavourID == flavourID)

/-- Modelled from the spec: `addNewTransacion` is declared outside the files at
hand. It "adds the transaction to the transactions map", under the key
`transaction.TransactionID`: an entry with that key is replaced. -/
def Gateway.addNewTransacion (g : Gateway) (transaction : Transaction) : Gateway :=
  { g with Transactions :=
      g.Transactions.filter (fun t => t.TransactionID != transaction.TransactionID)
        ++ [transaction] }

/-- Modelled from the spec: `GetTransaction` is declared outside the files at
hand. "Look up the Transaction by ID; fails if absent" (`none`). -/
def Gateway.GetTransaction (g : Gateway) (transactionID : String) : Option Transaction :=
  g.Transactions.find? (fun t => t.TransactionID == transactionID)

/-- Modelled from the spec: `removeTransaction` is declared outside the files at
hand. It "removes the transaction from the transactions map". -/
def Gateway.removeTransaction (g : Gateway) (transactionID : String) : Gateway :=
  { g with Transactions := g.Transactions.filter (fun t => t.TransactionID != transactionID) }

/-- Modelled from the spec: `services.GetFlavourByID` is declared outside the
files at hand. It looks the Flavour up in the store by its ID; `none` stands for
the result `(nil, err)`. -/
def GetFlavourByID (env : Env) (flavourID : String) (client : Cluster) : Option Flavour :=
  if env.getFlavourFails then none else client.Flavours.find? (fun f => f.Name == flavourID)

/-- Modelled from the spec: `resourceforge.ForgeTransactionObj` is declared
outside the files at hand. "Construct a Transaction with startTime = now" from
the minted ID and the request. -/
def ForgeTransactionObj (env : Env) (ID : String) (req : ReserveRequest) : Transaction :=
  { TransactionID := ID, FlavourID := req.FlavourID, Buyer := req.Buyer, StartTime := env.now }

/-- Modelled from the spec: `tools.CheckExpiration` is declared outside the
files at hand. "`now - transaction.startTime > EXPIRATION_TRANSACTION`". -/
def CheckExpiration (env : Env) (startTime expiration : Nat) : Bool :=
  decide (env.now - startTime > expiration)

/-- The errors of `g.client.List`, as far as `client.IgnoreNotFound` tells them
apart. -/
inductive ListError where
  | notFound
  | other
deriving DecidableEq, Repr

/-- Modelled from the spec: the store is an external collaborator. The call
`g.client.List(ctx, &contractList, MatchingFields{"spec.transactionID": id})`
is "an indexed lookup on transaction ID": it yields the stored Contracts with
that transaction ID, it may fail, and it may report that nothing was found as a
NotFound error. -/
def Cluster.List (client : Cluster) (env : Env) (transactionID : String) :
    Except ListError (List Contract) :=
  if env.listFails then .error .other
  else
    let items := client.Contracts.filter (fun c => c.TransactionID == transactionID)
    if items.isEmpty && env.emptyListIsNotFound then .error .notFound else .ok items

/-- Modelled from the spec: `g.client.Create` of a Contract; the store is an
external collaborator. On success the Contract is stored. -/
def Cluster.Create (client : Cluster) (contract : Contract) : Cluster :=
  { client with Contracts := client.Contracts ++ [contract] }

/-- Modelled from the spec: `resourceforge.ForgeContract` is declared outside
the files at hand. "Given a sold Flavour snapshot, a consumed Transaction, and
peering credentials, produce a Contract record containing all three plus a
fresh identity." -/
def ForgeContract (env : Env) (flavour : Flavour) (transaction : Transaction)
    (credentials : String) : Contract :=
  { Name := env.contractName, Flavour := flavour, TransactionID := transaction.TransactionID,
    Buyer := transaction.Buyer, SellerCredentials := credentials }

/-! ## `reserveFlavour` -/

/-- The handler `reserveFlavour`. `flavourID` is the URL parameter and `body`
the result of decoding the request body. The result is the gateway after the
request and the response written. -/
def reserveFlavour (g : Gateway) (env : Env) (flavourID : String)
    (body : Except String ReserveRequest) : Gateway × Response :=
  -- var transaction models.Transaction
  let transaction : Transaction := default
  match body with
  | .error e => (g, httpError e StatusBadRequest)
  | .ok request =>
    if flavourID ≠ request.FlavourID then
      (g, httpError "Mismatch body & param" StatusConflict)
    else
      -- Check if the Transaction already exists
      match g.SearchTransaction request.Buyer.NodeID flavourID with
      | some t =>
        -- t.StartTime = tools.GetTimeNow(); transaction = t; g.addNewTransacion(t)
        let t := { t with StartTime := env.now }
        let transaction := t
        let g := g.addNewTransacion t
        (g, encodeResponse (.transaction transaction))
      | none =>
        match GetFlavourByID env flavourID g.client with
        | none => (g, httpError "Flavour not found" StatusNotFound)
        | some _ =>
          match env.newTransactionID with
          | none => (g, httpError "Error generating transaction ID" StatusInternalServerError)
          | some transactionID =>
            -- `transaction := resourceforge.ForgeTransactionObj(transactionID, request)`
            -- declares a new variable, local to the `if !found` block
            let transactionInBlock := ForgeTransactionObj env transactionID request
            let g := g.addNewTransacion transactionInBlock
            -- after the block, `transaction` is the variable declared at the top
            (g, encodeResponse (.transaction transaction))

/-! ## `purchaseFlavour` -/

/-- The end of `purchaseFlavour`, from "Performing purchase of flavour" on: what
the handler does once the Transaction is found, has not expired, and no
Contract is listed for it. -/
def performPurchase (g : Gateway) (env : Env) (transaction : Transaction) : Gateway × Response :=
  -- Remove the transaction from the transactions map
  let g := g.removeTransaction transaction.TransactionID
  -- Get the flavour sold for creating the contract
  match GetFlavourByID env transaction.FlavourID g.client with
  | none => (g, httpError "Error getting the Flavour by ID" StatusInternalServerError)
  | some flavourSold =>
    match env.liqoCredentials with
    | none => (g, httpError "Error getting Liqo Credentials" StatusInternalServerError)
    | some liqoCredentials =>
      -- Create a new contract
      let contract := ForgeContract env flavourSold transaction liqoCredentials
      match env.createError with
      | some e =>
        (g, httpError ("Error creating the Contract: " ++ e) StatusInternalServerError)
      | none =>
        ({ g with client := g.client.Create contract }, encodeResponse (.purchase contract))

/-- The handler `purchaseFlavour`. `transactionID` is the URL parameter and
`body` the result of decoding the request body. The result is the gateway after
the request and the response written. -/
def purchaseFlavour (g : Gateway) (env : Env) (transactionID : String)
    (body : Except String PurchaseRequest) : Gateway × Response :=
  match body with
  | .error e => (g, httpError e StatusBadRequest)
  | .ok purchase =>
    if transactionID ≠ purchase.TransactionID then
      (g, httpError "Mismatch body & param" StatusConflict)
    else
      -- Retrieve the transaction from the transactions map
      match g.GetTransaction purchase.TransactionID with
      | none => (g, httpError "Error getting the Transaction" StatusInternalServerError)
      | some transaction =>
        if CheckExpiration env transaction.StartTime env.EXPIRATION_TRANSACTION then
          (g.removeTransaction transaction.TransactionID,
            httpError "Error: transaction Timeout" StatusRequestTimeout)
        else
          -- Check if the Contract with the same TransactionID already exists
          match g.client.List env purchase.TransactionID with
          | .error .other =>
            (g, httpError "Error when listing Contracts" StatusInternalServerError)
          | .error .notFound =>
            -- the error is ignored and `contractList` is still empty
            performPurchase g env transaction
          | .ok [] => performPurchase g env transaction
          | .ok (contract :: _) => (g, encodeResponse (.purchase contract))

/-! ## Sequences of requests -/

/-- One request to the reserve or purchase endpoint, with the outcome of the
external calls made while it is served. -/
inductive Call where
  | reserve (env : Env) (flavourID : String) (body : Except String ReserveRequest)
  | purchase (env : Env) (transactionID : String) (body : Except String PurchaseRequest)

/-- Serving one request. -/
def Gateway.serve (g : Gateway) : Call → Gateway × Response
  | .reserve env flavourID body => reserveFlavour g env flavourID body
  | .purchase env transactionID body => purchaseFlavour g env transactionID body

/-- Serving requests one after another; the gateway left by the last one. -/
def Gateway.run (g : Gateway) : List Call → Gateway
  | [] => g
  | c :: cs => Gateway.run (g.serve c).1 cs

/-! ## The Discovery reconciler -/

/-- Modelled from the spec: the constants `PhaseIdle`, `PhaseRunning`,
`PhaseSolved`, `PhaseFailed` and `PhaseTimeout` of the string type `Phase` are
declared outside the files at hand ("`Idle | Running | Solved | Failed |
Timeout`"). `unset` stands for the empty string and for every other string. -/
inductive Phase where
  | unset
  | Idle
  | Running
  | Solved
  | Failed
  | Timeout
deriving DecidableEq, Repr, Inhabited

/-- The struct `PhaseStatus`. -/
structure PhaseStatus where
  Phase : Phase
  Message : String
  StartTime : String
  LastChangeTime : String
  EndTime : String
deriving DecidableEq, Repr, Inhabited

/-- The struct `MatchSelector`. -/
structure MatchSelector where
  Cpu : Quantity
  Memory : Quantity
  Storage : Quantity
  EphemeralStorage : Quantity
  Gpu : Quantity
deriving DecidableEq, Repr, Inhabited

/-- The struct `RangeSelector`. -/
structure RangeSelector where
  MinCpu : Quantity
  MinMemory : Quantity
  MinEph : Quantity
  MinStorage : Quantity
  MinGpu : Quantity
  MaxCpu : Quantity
  MaxMemory : Quantity
  MaxEph : Quantity
  MaxStorage : Quantity
  MaxGpu : Quantity
deriving DecidableEq, Repr, Inhabited

/-- The struct `FlavourSelector`. -/
structure FlavourSelector where
  FlavourType : String
  Architecture : String
  RangeSelector : Option RangeSelector
  MatchSelector : Option MatchSelector
deriving DecidableEq, Repr, Inhabited

/-- The struct `GenericRef`, as the reconciler fills it. -/
structure GenericRef where
  Name : String
  Namespace : String
deriving DecidableEq, Repr, Inhabited

/-- Modelled from the spec: the `PeeringCandidate` type is declared outside the
files at hand. "A reference to one selected Flavour plus a `reserved` boolean",
with the name and namespace every stored entity has. -/
structure PeeringCandidate where
  Name : String
  Namespace : String
  Flavour : Flavour
  SolverID : String
  Reserved : Bool
deriving DecidableEq, Repr, Inhabited

/-- The spec of a Discovery: "a Selector + the originating Solver's ID". -/
structure DiscoverySpec where
  SolverID : String
  Selector : FlavourSelector
deriving DecidableEq, Repr, Inhabited

/-- The status of a Discovery: "a Phase plus a reference to the chosen
PeeringCandidate once solved". -/
structure DiscoveryStatus where
  Phase : PhaseStatus
  PeeringCandidate : GenericRef
deriving DecidableEq, Repr, Inhabited

/-- Modelled from the spec: the `Discovery` type is declared outside the files
at hand; these are the fields `Reconcile` reads and writes. -/
structure Discovery where
  Name : String
  Spec : DiscoverySpec
  Status : DiscoveryStatus
deriving DecidableEq, Repr, Inhabited

/-- The outcome of every external call of one `Reconcile`. -/
structure ReconcileEnv where
  /-- The instant returned by `tools.GetTimeNow()`. -/
  now : String
  /-- The collaborator `r.Gateway.DiscoverFlavours`. -/
  DiscoverFlavours : FlavourSelector → Except String (List Flavour)
  /-- The error of the `k`-th `r.Create` of this call (from 0), `none` for success. -/
  createError : Nat → Option String
  /-- The error of `r.Status().Update`, `none` for success. -/
  updateError : Option String
  /-- The name given to the PeeringCandidate forged for a Flavour. -/
  candidateName : Flavour → String
  /-- The namespace given to a forged PeeringCandidate. -/
  candidateNamespace : String

/-- Modelled from the spec: `SetPhase` is declared outside the files at hand. It
sets the phase with its message and stamps the change. -/
def Discovery.SetPhase (discovery : Discovery) (env : ReconcileEnv) (phase : Phase)
    (msg : String) : Discovery :=
  { discovery with
    Status := { discovery.Status with
      Phase := { discovery.Status.Phase with
        Phase := phase, Message := msg, LastChangeTime := env.now } } }

/-- Modelled from the spec: `resourceforge.ForgePeeringCandidate` is declared
outside the files at hand. It builds the PeeringCandidate of a Flavour for a
Solver, marked `reserved` as asked. -/
def ForgePeeringCandidate (env : ReconcileEnv) (flavour : Flavour) (solverID : String)
    (reserved : Bool) : PeeringCandidate :=
  { Name := env.candidateName flavour, Namespace := env.candidateNamespace,
    Flavour := flavour, SolverID := solverID, Reserved := reserved }

/-- The result of `r.Get`. -/
inductive GetResult where
  | found (discovery : Discovery)
  | notFound
  | error (e : String)
deriving DecidableEq, Repr

/-- What one `Reconcile` does: the PeeringCandidates passed to `r.Create`, in
order (the last one is the failed one when a Create fails); the Discovery passed
to `updateDiscoveryStatus`, if that call is made; the error returned. -/
structure ReconcileResult where
  created : List PeeringCandidate
  statusUpdate : Option Discovery
  err : Option String
deriving DecidableEq, Repr

/-- The variables of the creation loop: `first`, `peeringCandidateReserved`, and
the PeeringCandidates passed to `r.Create` so far. -/
structure LoopState where
  first : Bool
  peeringCandidateReserved : PeeringCandidate
  created : List PeeringCandidate
deriving DecidableEq, Repr

/-- The loop `for _, flavour := range flavours` of `Reconcile`, from a given
state. The result is the state it stops in and the error of the failed Create,
if one failed. -/
def createLoop (env : ReconcileEnv) (solverID : String) :
    List Flavour → LoopState → LoopState × Option String
  | [], st => (st, none)
  | flavour :: rest, st =>
    let st :=
      if st.first then
        -- We refer to the first peering candidate as the one that is reserved
        let peeringCandidate := ForgePeeringCandidate env flavour solverID true
        { first := false, peeringCandidateReserved := peeringCandidate,
          created := st.created ++ [peeringCandidate] }
      else
        -- the others are created as not reserved
        let peeringCandidate := ForgePeeringCandidate env flavour solverID false
        { st with created := st.created ++ [peeringCandidate] }
    match env.createError (st.created.length - 1) with
    | some e => (st, some e)
    | none => createLoop env solverID rest st

/-- A status update followed by `return ctrl.Result{}, err`. -/
def updateDiscoveryStatus (env : ReconcileEnv) (created : List PeeringCandidate)
    (discovery : Discovery) : ReconcileResult :=
  { created := created, statusUpdate := some discovery, err := env.updateError }

/-- The method `DiscoveryReconciler.Reconcile`, given the result of `r.Get`. -/
def Reconcile (env : ReconcileEnv) (get : GetResult) : ReconcileResult :=
  match get with
  | .error e => { created := [], statusUpdate := none, err := some e }
  | .notFound => { created := [], statusUpdate := none, err := none }
  | .found discovery =>
    if discovery.Status.Phase.Phase ≠ Phase.Solved ∧
        discovery.Status.Phase.Phase ≠ Phase.Timeout ∧
        discovery.Status.Phase.Phase ≠ Phase.Failed ∧
        discovery.Status.Phase.Phase ≠ Phase.Running ∧
        discovery.Status.Phase.Phase ≠ Phase.Idle then
      let discovery : Discovery :=
        { discovery with
          Status := { discovery.Status with
            Phase := { discovery.Status.Phase with StartTime := env.now } } }
      let discovery := discovery.SetPhase env Phase.Running "Discovery started"
      updateDiscoveryStatus env [] discovery
    else
      match discovery.Status.Phase.Phase with
      | Phase.Running =>
        match env.DiscoverFlavours discovery.Spec.Selector with
        | .error _ =>
          let discovery := discovery.SetPhase env Phase.Failed "Error when getting Flavour"
          updateDiscoveryStatus env [] discovery
        | .ok flavours =>
          if flavours.length = 0 then
            let discovery := discovery.SetPhase env Phase.Failed "No Flavours found"
            updateDiscoveryStatus env [] discovery
          else
            let loop := createLoop env discovery.Spec.SolverID flavours
              { first := true, peeringCandidateReserved := default, created := [] }
            match loop.2 with
            | some e => { created := loop.1.created, statusUpdate := none, err := some e }
            | none =>
              -- Update the Discovery with the PeeringCandidate
              let discovery : Discovery :=
                { discovery with
                  Status := { discovery.Status with
                    PeeringCandidate :=
                      { Name := loop.1.peeringCandidateReserved.Name,
                        Namespace := loop.1.peeringCandidateReserved.Namespace } } }
              let discovery :=
                discovery.SetPhase env Phase.Solved "Discovery Solved: Peering Candidate found"
              updateDiscoveryStatus env loop.1.created discovery
      | _ => { created := [], statusUpdate := none, err := none }

/-- The stored Discovery and PeeringCandidates. -/
structure World where
  discovery : Discovery
  candidates : List PeeringCandidate
deriving DecidableEq, Repr

/-- The PeeringCandidates of a result whose Create succeeded: all of them, but
for the last one when the loop stopped on a failed Create. -/
def ReconcileResult.stored (env : ReconcileEnv) (r : ReconcileResult) : List PeeringCandidate :=
  match r.created.length with
  | 0 => []
  | k + 1 => if (env.createError k).isSome then r.created.take k else r.created

/-- One `Reconcile` of the stored Discovery: the status update reaches the store
when it succeeds, and so does every successful Create. -/
def World.reconcile (w : World) (env : ReconcileEnv) : World × ReconcileResult :=
  let r := Reconcile env (.found w.discovery)
  let d :=
    match r.statusUpdate, env.updateError with
    | some d, none => d
    | _, _ => w.discovery
  ({ discovery := d, candidates := w.candidates ++ r.stored env }, r)

/-- Reconciling the stored Discovery again and again, once per environment:
the world left by the last `Reconcile`, and every PeeringCandidate passed to
`r.Create` along the way, in order. -/
def World.reconcileAll (w : World) : List ReconcileEnv → World × List PeeringCandidate
  | [] => (w, [])
  | env :: envs =>
    let step := w.reconcile env
    let rest := World.reconcileAll step.1 envs
    (rest.1, step.2.created ++ rest.2)

/-! ## Predicates on the state -/

/-- Two Transactions are for the same (buyer node ID, flavour ID) pair. -/
def SamePair (a b : Transaction) : Prop :=
  a.Buyer.NodeID = b.Buyer.NodeID ∧ a.FlavourID = b.FlavourID

/-- The registry holds at most one Transaction per (buyer node ID, flavour ID)
pair: no two entries are for the same pair. -/
def OnePerPair (ts : List Transaction) : Prop :=
  ts.Pairwise (fun a b => ¬ SamePair a b)

/-- No two stored Contracts share a transaction ID. -/
def UniqueContracts (cs : List Contract) : Prop :=
  cs.Pairwise (fun a b => a.TransactionID ≠ b.TransactionID)

/-! ## Concrete inputs -/

def buyer1 : NodeIdentity := { NodeID := "buyer1", Other := "" }

def flavourX : Flavour := { Name := "flavourX", Cpu := 4, Availability := true }

/-- A seller that knows `flavourX`, with an empty transactions map and no
Contract. -/
def sellerX : Gateway :=
  { Transactions := [], client := { Flavours := [flavourX], Contracts := [] } }

/-- A request served at instant `now` in which every external call succeeds; a
minted transaction ID would be `id`, and Transactions expire after 60. -/
def envAt (now : Nat) (id : String) : Env :=
  { now := now, EXPIRATION_TRANSACTION := 60, newTransactionID := some id,
    getFlavourFails := false, listFails := false, emptyListIsNotFound := false,
    liqoCredentials := some "creds", contractName := "contract-" ++ id, createError := none }

/-- The reserve request of `buyer1` for `flavourX`. -/
def reserveX : Except String ReserveRequest :=
  .ok { FlavourID := "flavourX", Buyer := buyer1 }

/-- The Transaction `tx-1` of `buyer1` for `flavourX`, started at 100. -/
def transaction1 : Transaction :=
  { TransactionID := "tx-1", FlavourID := "flavourX", Buyer := buyer1, StartTime := 100 }

/-- The seller holding `transaction1`. -/
def sellerWithT1 : Gateway := { sellerX with Transactions := [transaction1] }

/-- The purchase request for `tx-1`. -/
def purchaseT1 : Except String PurchaseRequest := .ok { TransactionID := "tx-1" }

/-- The Contract forged by the purchase of `tx-1` in `envAt now "tx-1"`. -/
def contract1 : Contract :=
  { Name := "contract-tx-1", Flavour := flavourX, TransactionID := "tx-1", Buyer := buyer1,
    SellerCredentials := "creds" }

/-- A Contract stored by an earlier sale, for transaction `tx-0`. -/
def contract0 : Contract :=
  { Name := "contract-tx-0", Flavour := flavourX, TransactionID := "tx-0", Buyer := buyer1,
    SellerCredentials := "creds" }

/-- The seller holding `transaction1` and the Contract `contract0`. -/
def sellerWithT1C0 : Gateway :=
  { Transactions := [transaction1], client := { Flavours := [flavourX], Contracts := [contract0] } }

/-- A purchase of `tx-1`, a reserve of `flavourX` by `buyer1`, a second purchase
of `tx-1`, and a second reserve. -/
def sampleCalls : List Call :=
  [.purchase (envAt 120 "tx-1") "tx-1" purchaseT1,
   .reserve (envAt 125 "tx-2") "flavourX" reserveX,
   .purchase (envAt 130 "tx-1") "tx-1" purchaseT1,
   .reserve (envAt 135 "tx-3") "flavourX" reserveX]

/-- Flavours for the examples: two unavailable ones, an available one, one
with a CPU quantity of zero, and the two of scenario A. -/
def unavailable1 : Flavour := { Name := "flavour-u1", Cpu := 1, Availability := false }
def unavailable2 : Flavour := { Name := "flavour-u2", Cpu := 8, Availability := false }
def available3 : Flavour := { Name := "flavour-a3", Cpu := 2, Availability := true }
def zeroCpu : Flavour := { Name := "flavour-0", Cpu := 0, Availability := true }
def cpu2 : Flavour := { Name := "flavour-2", Cpu := 2, Availability := true }
def cpu4 : Flavour := { Name := "flavour-4", Cpu := 4, Availability := true }

/-- A `Reconcile` in which `DiscoverFlavours` returns `flavours` and every store
call succeeds. -/
def discoveryEnv (flavours : List Flavour) : ReconcileEnv :=
  { now := "2023-11-01T10:00:00Z", DiscoverFlavours := fun _ => .ok flavours,
    createError := fun _ => none, updateError := none,
    candidateName := fun f => "peeringcandidate-" ++ f.Name, candidateNamespace := "fluidos" }

/-- A Discovery of `solver1` in phase Running. -/
def runningDiscovery : Discovery :=
  { Name := "discovery-solver1",
    Spec := { SolverID := "solver1", Selector := default },
    Status := { Phase := { Phase := Phase.Running, Message := "Discovery started",
                           StartTime := "2023-11-01T09:59:59Z",
                           LastChangeTime := "2023-11-01T09:59:59Z", EndTime := "" },
                PeeringCandidate := default } }

/-- A `Reconcile` in which `DiscoverFlavours` returns `flavours` and the second
Create fails. -/
def discoveryEnvSecondCreateFails (flavours : List Flavour) : ReconcileEnv :=
  { discoveryEnv flavours with
    createError := fun k => if k = 1 then some "create refused" else none }

/-- A `Reconcile` in which `DiscoverFlavours` fails. -/
def discoveryEnvFailing : ReconcileEnv :=
  { discoveryEnv [] with DiscoverFlavours := fun _ => .error "no seller reachable" }

/-- A Discovery of `solver1` in phase Solved. -/
def solvedDiscovery : Discovery :=
  runningDiscovery.SetPhase (discoveryEnv []) Phase.Solved
    "Discovery Solved: Peering Candidate found"

/-- The purchase environment of instant 120 in which the store refuses the
Contract creation. -/
def envCreateRefused : Env := { envAt 120 "tx-1" with createError := some "refused" }

/-! ## Lemmas on the transactions map -/

theorem find?_filter_ne_none (ts : List Transaction) (id : String) :
    (ts.filter (fun t => t.TransactionID != id)).find? (fun t => t.TransactionID == id)
      = none := by
  rw [List.find?_eq_none]
  intro t ht
  have h := (List.mem_filter.mp ht).2
  simpa using h

theorem GetTransaction_id {g : Gateway} {id : String} {t : Transaction}
    (h : g.GetTransaction id = some t) : t.TransactionID = id := by
  have h' := List.find?_some h
  simpa using h'

theorem GetTransaction_mem {g : Gateway} {id : String} {t : Transaction}
    (h : g.GetTransaction id = some t) : t ∈ g.Transactions :=
  List.mem_of_find?_eq_some h

theorem GetTransaction_removeTransaction (g : Gateway) (id : String) :
    (g.removeTransaction id).GetTransaction id = none := by
  simp only [Gateway.removeTransaction, Gateway.GetTransaction]
  exact find?_filter_ne_none g.Transactions id

/-! ## The response of `reserveFlavour` (C1, C3) -/

/-- C1: a reserve request of `buyer1` for `flavourX`, with matching URL
and body, no Transaction for the pair in the registry and the flavour known to
the seller, registers the Transaction with the minted ID `tx-1`, the flavour
and the buyer of the request, but the Transaction written in the response is
the zero value: its transaction ID is empty and differs from the registered
one. -/
theorem reserveFlavour_fresh_response_not_registered :
    sellerX.SearchTransaction buyer1.NodeID "flavourX" = none ∧
      GetFlavourByID (envAt 100 "tx-1") "flavourX" sellerX.client = some flavourX ∧
      (reserveFlavour sellerX (envAt 100 "tx-1") "flavourX" reserveX).1.Transactions
        = [transaction1] ∧
      (reserveFlavour sellerX (envAt 100 "tx-1") "flavourX" reserveX).2
        = { status := 200,
            body := .transaction
              { TransactionID := "", FlavourID := "", Buyer := { NodeID := "", Other := "" },
                StartTime := 0 } } ∧
      (reserveFlavour sellerX (envAt 100 "tx-1") "flavourX" reserveX).2
        ≠ encodeResponse (.transaction transaction1) := by
  decide

/-- C3: two consecutive reserve requests of `buyer1` for `flavourX`, the
Transaction of the first still in the registry when the second arrives, are
answered with different transaction IDs: the first response carries the empty
ID of the zero value, the second the ID `tx-1` registered by the first. -/
theorem reserveFlavour_twice_different_ids :
    (reserveFlavour sellerX (envAt 100 "tx-1") "flavourX" reserveX).2
        = encodeResponse (.transaction default) ∧
      (reserveFlavour (reserveFlavour sellerX (envAt 100 "tx-1") "flavourX" reserveX).1
          (envAt 110 "tx-2") "flavourX" reserveX).2
        = encodeResponse (.transaction { transaction1 with StartTime := 110 }) ∧
      (default : Transaction).TransactionID ≠ transaction1.TransactionID := by
  decide

/-! ## Purchase (C2, C4) -/

/-- C2: the first purchase of `tx-1` succeeds and creates `contract1`;
the second purchase of `tx-1`, served right after it, is answered 500 "Error
getting the Transaction" and not with the purchase response of `contract1`. It
creates no Contract. -/
theorem purchaseFlavour_twice_second_fails :
    purchaseFlavour sellerWithT1 (envAt 120 "tx-1") "tx-1" purchaseT1
        = ({ Transactions := [], client := { Flavours := [flavourX], Contracts := [contract1] } },
            encodeResponse (.purchase contract1)) ∧
      purchaseFlavour (purchaseFlavour sellerWithT1 (envAt 120 "tx-1") "tx-1" purchaseT1).1
          (envAt 130 "tx-1") "tx-1" purchaseT1
        = ({ Transactions := [], client := { Flavours := [flavourX], Contracts := [contract1] } },
            httpError "Error getting the Transaction" 500) := by
  decide

/-- C4: a purchase request whose URL and body transaction IDs agree, whose
Transaction is in the registry and has expired, is answered 408 with the text
of the timeout error; afterwards the registry has no entry with that
transaction ID (looking it up fails, and the Transaction itself is gone); the
stored Contracts are unchanged and the response carries no Contract. -/
theorem purchaseFlavour_expired (g : Gateway) (env : Env) (transactionID : String)
    (purchase : PurchaseRequest) (transaction : Transaction)
    (hid : transactionID = purchase.TransactionID)
    (hget : g.GetTransaction purchase.TransactionID = some transaction)
    (hexp : CheckExpiration env transaction.StartTime env.EXPIRATION_TRANSACTION = true) :
    (purchaseFlavour g env transactionID (.ok purchase)).2
        = httpError "Error: transaction Timeout" StatusRequestTimeout ∧
      (purchaseFlavour g env transactionID (.ok purchase)).2.status = 408 ∧
      (purchaseFlavour g env transactionID (.ok purchase)).1.GetTransaction
          purchase.TransactionID = none ∧
      (∀ t ∈ (purchaseFlavour g env transactionID (.ok purchase)).1.Transactions,
          t.TransactionID ≠ purchase.TransactionID) ∧
      transaction ∉ (purchaseFlavour g env transactionID (.ok purchase)).1.Transactions ∧
      (purchaseFlavour g env transactionID (.ok purchase)).1.client = g.client ∧
      (∀ c, (purchaseFlavour g env transactionID (.ok purchase)).2.body ≠ .purchase c) := by
  have htid : transaction.TransactionID = purchase.TransactionID := GetTransaction_id hget
  have hrun : purchaseFlavour g env transactionID (.ok purchase)
      = (g.removeTransaction purchase.TransactionID,
          httpError "Error: transaction Timeout" StatusRequestTimeout) := by
    simp [purchaseFlavour, hid, hget, hexp, htid]
  have hall : ∀ t ∈ (g.removeTransaction purchase.TransactionID).Transactions,
      t.TransactionID ≠ purchase.TransactionID := by
    intro t ht
    have h := (List.mem_filter.mp ht).2
    simpa using h
  rw [hrun]
  refine ⟨rfl, rfl, GetTransaction_removeTransaction g _, hall, ?_, rfl, ?_⟩
  · intro hmem
    exact hall transaction hmem htid
  · intro c hc
    simp [httpError] at hc

/-- Witness for C4: `tx-1`, started at 100, is purchased at 1000 with an
expiration of 60. -/
theorem purchaseFlavour_expired_witness :
    sellerWithT1.GetTransaction "tx-1" = some transaction1 ∧
      CheckExpiration (envAt 1000 "tx-9") transaction1.StartTime 60 = true ∧
      (purchaseFlavour sellerWithT1 (envAt 1000 "tx-9") "tx-1" (.ok { TransactionID := "tx-1" })).2
        = httpError "Error: transaction Timeout" StatusRequestTimeout ∧
      (purchaseFlavour sellerWithT1 (envAt 1000 "tx-9") "tx-1"
          (.ok { TransactionID := "tx-1" })).1.GetTransaction "tx-1" = none :=
  have h := purchaseFlavour_expired sellerWithT1 (envAt 1000 "tx-9") "tx-1"
    { TransactionID := "tx-1" } transaction1 rfl (by decide) (by decide)
  ⟨by decide, by decide, h.1, h.2.2.1⟩

/-! ## The contract store (C5) -/

theorem clientList_notFound {client : Cluster} {env : Env} {id : String}
    (h : client.List env id = .error .notFound) :
    client.Contracts.filter (fun c => c.TransactionID == id) = [] := by
  unfold Cluster.List at h
  by_cases hf : env.listFails = true
  · simp [hf] at h
  · by_cases he : (client.Contracts.filter (fun c => c.TransactionID == id)).isEmpty = true
    · simpa using he
    · simp [hf, he] at h

theorem clientList_ok {client : Cluster} {env : Env} {id : String} {items : List Contract}
    (h : client.List env id = .ok items) :
    items = client.Contracts.filter (fun c => c.TransactionID == id) := by
  unfold Cluster.List at h
  by_cases hf : env.listFails = true
  · simp [hf] at h
  · by_cases he : ((client.Contracts.filter (fun c => c.TransactionID == id)).isEmpty
        && env.emptyListIsNotFound) = true
    · simp [hf, he] at h
    · simp only [hf, he] at h
      simpa using h.symm

theorem no_contract_of_filter_nil {cs : List Contract} {id : String}
    (h : cs.filter (fun c => c.TransactionID == id) = []) :
    ∀ c ∈ cs, c.TransactionID ≠ id := by
  intro c hc heq
  have : c ∈ cs.filter (fun c => c.TransactionID == id) :=
    List.mem_filter.mpr ⟨hc, by simpa using heq⟩
  rw [h] at this
  cases this

/-- What `performPurchase` does to the stored Contracts: nothing, or one
Contract with the Transaction's ID is added. -/
theorem performPurchase_contracts (g : Gateway) (env : Env) (transaction : Transaction) :
    (performPurchase g env transaction).1.client.Contracts = g.client.Contracts ∨
    ∃ c, (performPurchase g env transaction).1.client.Contracts = g.client.Contracts ++ [c] ∧
      c.TransactionID = transaction.TransactionID := by
  have hclient : (g.removeTransaction transaction.TransactionID).client = g.client := rfl
  cases hf : GetFlavourByID env transaction.FlavourID g.client with
  | none => left; simp [performPurchase, hclient, hf, Gateway.removeTransaction]
  | some flavourSold =>
    cases hc : env.liqoCredentials with
    | none => left; simp [performPurchase, hclient, hf, hc, Gateway.removeTransaction]
    | some liqoCredentials =>
      cases he : env.createError with
      | some e => left; simp [performPurchase, hclient, hf, hc, he, Gateway.removeTransaction]
      | none =>
        right
        refine ⟨ForgeContract env flavourSold transaction liqoCredentials, ?_, rfl⟩
        simp [performPurchase, hclient, hf, hc, he, Gateway.removeTransaction, Cluster.Create]

/-- What `purchaseFlavour` does to the stored Contracts: nothing, or it adds one
Contract with the requested transaction ID, and then the store held no Contract
with that ID. -/
theorem purchaseFlavour_contracts (g : Gateway) (env : Env) (transactionID : String)
    (body : Except String PurchaseRequest) :
    (purchaseFlavour g env transactionID body).1.client.Contracts = g.client.Contracts ∨
    ∃ c, (purchaseFlavour g env transactionID body).1.client.Contracts
          = g.client.Contracts ++ [c] ∧
        c.TransactionID = transactionID ∧
        ∀ c' ∈ g.client.Contracts, c'.TransactionID ≠ transactionID := by
  cases body with
  | error e => left; rfl
  | ok purchase =>
    by_cases hid : transactionID = purchase.TransactionID
    swap
    · left; simp [purchaseFlavour, hid]
    cases hget : g.GetTransaction purchase.TransactionID with
    | none => left; simp [purchaseFlavour, hid, hget]
    | some transaction =>
      have htid : transaction.TransactionID = transactionID := by
        rw [hid]; exact GetTransaction_id hget
      by_cases hexp : CheckExpiration env transaction.StartTime env.EXPIRATION_TRANSACTION = true
      · left; simp [purchaseFlavour, hid, hget, hexp, Gateway.removeTransaction]
      · have hperform : ∀ (hnone : ∀ c' ∈ g.client.Contracts, c'.TransactionID ≠ transactionID),
            (performPurchase g env transaction).1.client.Contracts = g.client.Contracts ∨
            ∃ c, (performPurchase g env transaction).1.client.Contracts
                  = g.client.Contracts ++ [c] ∧
                c.TransactionID = transactionID ∧
                ∀ c' ∈ g.client.Contracts, c'.TransactionID ≠ transactionID := by
          intro hnone
          rcases performPurchase_contracts g env transaction with h | ⟨c, hc, hct⟩
          · exact Or.inl h
          · exact Or.inr ⟨c, hc, hct.trans htid, hnone⟩
        cases hlist : g.client.List env purchase.TransactionID with
        | error err =>
          cases err with
          | other => left; simp [purchaseFlavour, hid, hget, hexp, hlist]
          | notFound =>
            have hnone := no_contract_of_filter_nil (clientList_notFound hlist)
            rw [← hid] at hnone
            simpa [purchaseFlavour, hid, hget, hexp, hlist] using hid ▸ hperform hnone
        | ok items =>
          cases items with
          | cons contract rest => left; simp [purchaseFlavour, hid, hget, hexp, hlist]
          | nil =>
            have hnone := no_contract_of_filter_nil (clientList_ok hlist).symm
            rw [← hid] at hnone
            simpa [purchaseFlavour, hid, hget, hexp, hlist] using hid ▸ hperform hnone

theorem reserveFlavour_client (g : Gateway) (env : Env) (flavourID : String)
    (body : Except String ReserveRequest) :
    (reserveFlavour g env flavourID body).1.client = g.client := by
  unfold reserveFlavour
  cases body with
  | error e => rfl
  | ok request =>
    simp only
    split
    · rfl
    · split
      · rfl
      · split
        · rfl
        · split <;> rfl

theorem UniqueContracts_append {cs : List Contract} {c : Contract} (h : UniqueContracts cs)
    (hc : ∀ c' ∈ cs, c'.TransactionID ≠ c.TransactionID) : UniqueContracts (cs ++ [c]) := by
  unfold UniqueContracts at *
  rw [List.pairwise_append]
  refine ⟨h, List.pairwise_singleton _ _, ?_⟩
  intro a ha b hb
  rw [List.mem_singleton] at hb
  subst hb
  exact hc a ha

theorem serve_UniqueContracts (g : Gateway) (call : Call)
    (h : UniqueContracts g.client.Contracts) :
    UniqueContracts (g.serve call).1.client.Contracts := by
  cases call with
  | reserve env flavourID body =>
    simp only [Gateway.serve, reserveFlavour_client]
    exact h
  | purchase env transactionID body =>
    simp only [Gateway.serve]
    rcases purchaseFlavour_contracts g env transactionID body with h' | ⟨c, hc, hct, hnone⟩
    · rw [h']; exact h
    · rw [hc]
      exact UniqueContracts_append h (by rw [hct]; exact hnone)

/-- C5: from a store in which no two Contracts share a transaction ID,
every sequence of reserve and purchase requests served one after another
leaves a store in which no two Contracts share a transaction ID; and a purchase
for transaction ID `t`, from any gateway, either leaves the stored Contracts as
they are or adds exactly one Contract, with transaction ID `t`, in which case
the store held no Contract with transaction ID `t`. -/
theorem run_UniqueContracts (g : Gateway) (calls : List Call)
    (h : UniqueContracts g.client.Contracts) :
    UniqueContracts (g.run calls).client.Contracts ∧
      ∀ (g' : Gateway) (env : Env) (t : String) (body : Except String PurchaseRequest),
        (purchaseFlavour g' env t body).1.client.Contracts = g'.client.Contracts ∨
        ∃ c, (purchaseFlavour g' env t body).1.client.Contracts = g'.client.Contracts ++ [c] ∧
          c.TransactionID = t ∧ ∀ c' ∈ g'.client.Contracts, c'.TransactionID ≠ t := by
  refine ⟨?_, purchaseFlavour_contracts⟩
  induction calls generalizing g with
  | nil => exact h
  | cons call rest ih => exact ih (g.serve call).1 (serve_UniqueContracts g call h)

/-- Witness for C5: from the store holding `contract0`, the four requests of
`sampleCalls` leave the Contracts `contract0` and `contract1`. -/
theorem run_UniqueContracts_witness :
    UniqueContracts sellerWithT1C0.client.Contracts ∧
      UniqueContracts (sellerWithT1C0.run sampleCalls).client.Contracts ∧
      (sellerWithT1C0.run sampleCalls).client.Contracts = [contract0, contract1] :=
  ⟨List.pairwise_singleton _ _,
    (run_UniqueContracts sellerWithT1C0 sampleCalls (List.pairwise_singleton _ _)).1,
    by decide⟩

/-! ## The transaction registry (C6) -/

theorem SearchTransaction_some {g : Gateway} {buyerID flavourID : String} {t : Transaction}
    (h : g.SearchTransaction buyerID flavourID = some t) :
    t ∈ g.Transactions ∧ t.Buyer.NodeID = buyerID ∧ t.FlavourID = flavourID := by
  refine ⟨List.mem_of_find?_eq_some h, ?_⟩
  have h' := List.find?_some h
  simpa using h'

theorem SearchTransaction_none {g : Gateway} {buyerID flavourID : String}
    (h : g.SearchTransaction buyerID flavourID = none) :
    ∀ t ∈ g.Transactions, ¬ (t.Buyer.NodeID = buyerID ∧ t.FlavourID = flavourID) := by
  intro t ht
  have h' := List.find?_eq_none.mp h t ht
  simpa using h'

theorem OnePerPair_eq_of_samePair {ts : List Transaction} (h : OnePerPair ts)
    {a b : Transaction} (ha : a ∈ ts) (hb : b ∈ ts) (hab : SamePair a b) : a = b := by
  by_contra hne
  have hsymm : Symmetric (fun a b : Transaction => ¬ SamePair a b) := by
    intro x y hxy hyx
    exact hxy ⟨hyx.1.symm, hyx.2.symm⟩
  exact List.Pairwise.forall hsymm h ha hb hne hab

theorem OnePerPair_filter {ts : List Transaction} (h : OnePerPair ts)
    (p : Transaction → Bool) : OnePerPair (ts.filter p) :=
  List.Pairwise.filter p h

/-- Adding an entry keeps one Transaction per pair when every entry for the
pair of the new one has its key. -/
theorem OnePerPair_addNewTransacion {g : Gateway} {t : Transaction}
    (h : OnePerPair g.Transactions)
    (hkey : ∀ x ∈ g.Transactions, SamePair x t → x.TransactionID = t.TransactionID) :
    OnePerPair (g.addNewTransacion t).Transactions := by
  unfold OnePerPair Gateway.addNewTransacion
  simp only
  rw [List.pairwise_append]
  refine ⟨OnePerPair_filter h _, List.pairwise_singleton _ _, ?_⟩
  intro a ha b hb hsame
  rw [List.mem_singleton] at hb
  subst hb
  have hmem := List.mem_filter.mp ha
  have hne : a.TransactionID ≠ b.TransactionID := by simpa using hmem.2
  exact hne (hkey a hmem.1 hsame)

/-- What `reserveFlavour` does when the pair has a Transaction `t`. -/
theorem reserveFlavour_found (g : Gateway) (env : Env) (flavourID : String)
    (request : ReserveRequest) (t : Transaction) (hid : flavourID = request.FlavourID)
    (hfound : g.SearchTransaction request.Buyer.NodeID flavourID = some t) :
    reserveFlavour g env flavourID (.ok request)
      = (g.addNewTransacion { t with StartTime := env.now },
          encodeResponse (.transaction { t with StartTime := env.now })) := by
  subst hid
  simp [reserveFlavour, hfound]

/-- What `reserveFlavour` does to the registry when the pair has no
Transaction: nothing, or it adds the Transaction forged for the request. -/
theorem reserveFlavour_fresh (g : Gateway) (env : Env) (flavourID : String)
    (request : ReserveRequest) (hid : flavourID = request.FlavourID)
    (hnone : g.SearchTransaction request.Buyer.NodeID flavourID = none) :
    (reserveFlavour g env flavourID (.ok request)).1 = g ∨
    ∃ id, (reserveFlavour g env flavourID (.ok request)).1
        = g.addNewTransacion (ForgeTransactionObj env id request) := by
  subst hid
  cases hf : GetFlavourByID env request.FlavourID g.client with
  | none => left; simp [reserveFlavour, hnone, hf]
  | some flavour =>
    cases hm : env.newTransactionID with
    | none => left; simp [reserveFlavour, hnone, hf, hm]
    | some id => right; exact ⟨id, by simp [reserveFlavour, hnone, hf, hm]⟩

theorem reserveFlavour_OnePerPair (g : Gateway) (env : Env) (flavourID : String)
    (body : Except String ReserveRequest) (h : OnePerPair g.Transactions) :
    OnePerPair (reserveFlavour g env flavourID body).1.Transactions := by
  cases body with
  | error e => exact h
  | ok request =>
    by_cases hid : flavourID = request.FlavourID
    swap
    · simpa [reserveFlavour, hid] using h
    cases hs : g.SearchTransaction request.Buyer.NodeID flavourID with
    | some t =>
      rw [reserveFlavour_found g env flavourID request t hid hs]
      apply OnePerPair_addNewTransacion h
      intro x hx hsame
      have hxt : x = t :=
        OnePerPair_eq_of_samePair h hx (SearchTransaction_some hs).1 hsame
      rw [hxt]
    | none =>
      rcases reserveFlavour_fresh g env flavourID request hid hs with h' | ⟨id, h'⟩
      · rw [h']; exact h
      · rw [h']
        apply OnePerPair_addNewTransacion h
        intro x hx hsame
        exact absurd ⟨hsame.1, hsame.2.trans hid.symm⟩ (SearchTransaction_none hs x hx)

theorem performPurchase_transactions (g : Gateway) (env : Env) (transaction : Transaction) :
    (performPurchase g env transaction).1.Transactions
      = (g.removeTransaction transaction.TransactionID).Transactions := by
  have hclient : (g.removeTransaction transaction.TransactionID).client = g.client := rfl
  cases hf : GetFlavourByID env transaction.FlavourID g.client with
  | none => simp [performPurchase, hclient, hf]
  | some flavourSold =>
    cases hc : env.liqoCredentials with
    | none => simp [performPurchase, hclient, hf, hc]
    | some liqoCredentials =>
      cases he : env.createError with
      | some e => simp [performPurchase, hclient, hf, hc, he]
      | none => simp [performPurchase, hclient, hf, hc, he]

/-- What `purchaseFlavour` does to the registry: nothing, or it removes the
entries of one key. -/
theorem purchaseFlavour_transactions (g : Gateway) (env : Env) (transactionID : String)
    (body : Except String PurchaseRequest) :
    (purchaseFlavour g env transactionID body).1.Transactions = g.Transactions ∨
    ∃ id, (purchaseFlavour g env transactionID body).1.Transactions
      = (g.removeTransaction id).Transactions := by
  cases body with
  | error e => left; rfl
  | ok purchase =>
    by_cases hid : transactionID = purchase.TransactionID
    swap
    · left; simp [purchaseFlavour, hid]
    cases hget : g.GetTransaction purchase.TransactionID with
    | none => left; simp [purchaseFlavour, hid, hget]
    | some transaction =>
      by_cases hexp : CheckExpiration env transaction.StartTime env.EXPIRATION_TRANSACTION = true
      · right; exact ⟨transaction.TransactionID, by simp [purchaseFlavour, hid, hget, hexp]⟩
      · cases hlist : g.client.List env purchase.TransactionID with
        | error err =>
          cases err with
          | other => left; simp [purchaseFlavour, hid, hget, hexp, hlist]
          | notFound =>
            right
            exact ⟨transaction.TransactionID, by
              simp [purchaseFlavour, hid, hget, hexp, hlist, performPurchase_transactions]⟩
        | ok items =>
          cases items with
          | cons contract rest => left; simp [purchaseFlavour, hid, hget, hexp, hlist]
          | nil =>
            right
            exact ⟨transaction.TransactionID, by
              simp [purchaseFlavour, hid, hget, hexp, hlist, performPurchase_transactions]⟩

theorem serve_OnePerPair (g : Gateway) (call : Call) (h : OnePerPair g.Transactions) :
    OnePerPair (g.serve call).1.Transactions := by
  cases call with
  | reserve env flavourID body => exact reserveFlavour_OnePerPair g env flavourID body h
  | purchase env transactionID body =>
    simp only [Gateway.serve]
    rcases purchaseFlavour_transactions g env transactionID body with h' | ⟨id, h'⟩
    · rw [h']; exact h
    · rw [h']; exact OnePerPair_filter h _

theorem run_OnePerPair (g : Gateway) (calls : List Call) (h : OnePerPair g.Transactions) :
    OnePerPair (g.run calls).Transactions := by
  induction calls generalizing g with
  | nil => exact h
  | cons call rest ih => exact ih (g.serve call).1 (serve_OnePerPair g call h)

/-- C6: from a registry with at most one Transaction per (buyer node ID,
flavour ID) pair, every sequence of requests served one after another (reserve
requests, and purchase requests as well) leaves a registry with at most one
Transaction per pair. A reserve request for a pair that has a Transaction `t`
is answered with `t` under a refreshed start time, its transaction ID, flavour
ID and buyer unchanged; the registry afterwards is the old one with the entry
of `t` replaced by the refreshed `t`: it is no longer than before, and the
refreshed `t` is its only entry for the pair. -/
theorem reserveFlavour_one_transaction_per_pair (g : Gateway)
    (h : OnePerPair g.Transactions) :
    (∀ calls : List Call, OnePerPair (g.run calls).Transactions) ∧
      ∀ (env : Env) (flavourID : String) (request : ReserveRequest) (t : Transaction),
        flavourID = request.FlavourID →
        g.SearchTransaction request.Buyer.NodeID flavourID = some t →
        (reserveFlavour g env flavourID (.ok request)).2
            = encodeResponse (.transaction
                { TransactionID := t.TransactionID, FlavourID := t.FlavourID, Buyer := t.Buyer,
                  StartTime := env.now }) ∧
          (reserveFlavour g env flavourID (.ok request)).1.Transactions
            = g.Transactions.filter (fun x => x.TransactionID != t.TransactionID)
                ++ [{ t with StartTime := env.now }] ∧
          (reserveFlavour g env flavourID (.ok request)).1.Transactions.length
            ≤ g.Transactions.length ∧
          ((reserveFlavour g env flavourID (.ok request)).1.Transactions.filter
              (fun x => x.Buyer.NodeID == request.Buyer.NodeID && x.FlavourID == flavourID))
            = [{ t with StartTime := env.now }] := by
  refine ⟨fun calls => run_OnePerPair g calls h, ?_⟩
  intro env flavourID request t hid hfound
  have ht := SearchTransaction_some hfound
  rw [reserveFlavour_found g env flavourID request t hid hfound]
  refine ⟨rfl, rfl, ?_, ?_⟩
  · simp only [Gateway.addNewTransacion, List.length_append, List.length_singleton]
    have hlt : (g.Transactions.filter (fun x => x.TransactionID != t.TransactionID)).length
        < g.Transactions.length := by
      apply List.length_filter_lt_length_iff_exists.mpr
      exact ⟨t, ht.1, by simp⟩
    omega
  · simp only [Gateway.addNewTransacion, List.filter_append]
    have hnil : (g.Transactions.filter (fun x => x.TransactionID != t.TransactionID)).filter
        (fun x => x.Buyer.NodeID == request.Buyer.NodeID && x.FlavourID == flavourID) = [] := by
      rw [List.filter_eq_nil_iff]
      intro x hx hpair
      have hmem := List.mem_filter.mp hx
      have hpair' : x.Buyer.NodeID = request.Buyer.NodeID ∧ x.FlavourID = flavourID := by
        simpa using hpair
      have hxt : x = t :=
        OnePerPair_eq_of_samePair h hmem.1 ht.1
          ⟨hpair'.1.trans ht.2.1.symm, hpair'.2.trans ht.2.2.symm⟩
      have hne : x.TransactionID ≠ t.TransactionID := by simpa using hmem.2
      exact hne (by rw [hxt])
    rw [hnil]
    simp [ht.2.1, ht.2.2]

/-- Witness for C6: the registry holding `transaction1` keeps one Transaction
per pair through `sampleCalls`, and a reserve of `buyer1` for `flavourX` at 110
is answered with `transaction1` restarted at 110, the only entry afterwards. -/
theorem reserveFlavour_one_transaction_per_pair_witness :
    OnePerPair sellerWithT1.Transactions ∧
      OnePerPair (sellerWithT1.run sampleCalls).Transactions ∧
      (reserveFlavour sellerWithT1 (envAt 110 "tx-2") "flavourX"
          (.ok { FlavourID := "flavourX", Buyer := buyer1 })).2
        = encodeResponse (.transaction
            { TransactionID := "tx-1", FlavourID := "flavourX", Buyer := buyer1,
              StartTime := 110 }) ∧
      (reserveFlavour sellerWithT1 (envAt 110 "tx-2") "flavourX"
          (.ok { FlavourID := "flavourX", Buyer := buyer1 })).1.Transactions
        = [{ TransactionID := "tx-1", FlavourID := "flavourX", Buyer := buyer1,
             StartTime := 110 }] :=
  have h := reserveFlavour_one_transaction_per_pair sellerWithT1 (List.pairwise_singleton _ _)
  have h' := h.2 (envAt 110 "tx-2") "flavourX" { FlavourID := "flavourX", Buyer := buyer1 }
    transaction1 rfl (by decide)
  ⟨List.pairwise_singleton _ _, h.1 sampleCalls, h'.1, h'.2.1.trans (by decide)⟩

/-! ## The flavour loops of `getFlavours` and `getFlavoursBySelector` (C7, C8, C9) -/

/-- C7: on the stored flavours `unavailable1`, `unavailable2`,
`available3` the availability-filtering loop ends with `unavailable2` still in
the list, a flavour whose availability flag is false; `getFlavours` then
selects and serves it. -/
theorem filterAvailable_keeps_unavailable :
    filterAvailable [unavailable1, unavailable2, available3]
        = some [unavailable2, available3] ∧
      unavailable2.Availability = false ∧
      getFlavours (.ok [unavailable1, unavailable2, available3])
        = some (encodeResponse (.flavour unavailable2)) := by
  decide

/-- C8: on the two stored flavours `unavailable1`, `unavailable2`, neither
of them available, the availability-filtering loop panics on a slice
expression out of range, so `getFlavours` does not run to completion and writes
no 404. -/
theorem getFlavours_none_available_panics :
    unavailable1.Availability = false ∧ unavailable2.Availability = false ∧
      filterAvailable [unavailable1, unavailable2] = none ∧
      getFlavours (.ok [unavailable1, unavailable2]) = none := by
  decide

/-- C9: on the one-element list holding `zeroCpu`, whose CPU quantity is
zero, the max-CPU selection loop ends with the zero value of `Flavour` selected,
which is not a member of the list, and `getFlavours` serves it; on the two
flavours `cpu2`, `cpu4` the selected flavour is `cpu4`. -/
theorem selectMaxCpu_zero_cpu_not_member :
    selectMaxCpu [zeroCpu] = { Name := "", Cpu := 0, Availability := false } ∧
      selectMaxCpu [zeroCpu] ∉ [zeroCpu] ∧
      getFlavours (.ok [zeroCpu])
        = some (encodeResponse (.flavour { Name := "", Cpu := 0, Availability := false })) ∧
      selectMaxCpu [cpu2, cpu4] = cpu4 := by
  decide

/-! ## The Discovery reconciler (C10) -/

/-- The creation loop after its first iteration, when no Create fails: one
PeeringCandidate, not reserved, per remaining flavour. -/
theorem createLoop_not_first (env : ReconcileEnv) (solverID : String)
    (hcreate : ∀ k, env.createError k = none) (flavours : List Flavour) (st : LoopState)
    (hfirst : st.first = false) :
    createLoop env solverID flavours st
      = ({ st with created := st.created
              ++ flavours.map (fun f => ForgePeeringCandidate env f solverID false) }, none) := by
  induction flavours generalizing st with
  | nil => simp [createLoop]
  | cons f rest ih =>
    simp only [createLoop, hfirst, hcreate, Bool.false_eq_true, if_false]
    rw [ih _ rfl]
    simp

/-- The creation loop from its start, when no Create fails. -/
theorem createLoop_first (env : ReconcileEnv) (solverID : String)
    (hcreate : ∀ k, env.createError k = none) (f : Flavour) (rest : List Flavour)
    (reserved0 : PeeringCandidate) :
    createLoop env solverID (f :: rest)
        { first := true, peeringCandidateReserved := reserved0, created := [] }
      = ({ first := false,
           peeringCandidateReserved := ForgePeeringCandidate env f solverID true,
           created := ForgePeeringCandidate env f solverID true
              :: rest.map (fun f => ForgePeeringCandidate env f solverID false) }, none) := by
  simp only [createLoop, hcreate, if_true]
  rw [createLoop_not_first env solverID hcreate rest _ rfl]
  simp

/-- C10: for a Discovery in phase Running for which `DiscoverFlavours`
returns a non-empty list of flavours and every Create succeeds, one `Reconcile`
passes to `r.Create` exactly one PeeringCandidate per flavour, in list order;
the one of the first flavour is forged with `reserved = true` and every other
with `reserved = false`, so exactly one is reserved; the Discovery passed to the
status update records the name and namespace of that reserved candidate and has
phase Solved; and when the status update succeeds, that Discovery and the
created PeeringCandidates are what the store holds. -/
theorem Reconcile_running_creates_candidates (env : ReconcileEnv) (discovery : Discovery)
    (flavours : List Flavour)
    (hphase : discovery.Status.Phase.Phase = Phase.Running)
    (hflavours : env.DiscoverFlavours discovery.Spec.Selector = .ok flavours)
    (hne : flavours ≠ [])
    (hcreate : ∀ k, env.createError k = none) :
    (Reconcile env (.found discovery)).created
        = ForgePeeringCandidate env (flavours.head hne) discovery.Spec.SolverID true
            :: flavours.tail.map
                (fun f => ForgePeeringCandidate env f discovery.Spec.SolverID false) ∧
      (Reconcile env (.found discovery)).created.length = flavours.length ∧
      (Reconcile env (.found discovery)).created.map (fun pc => pc.Flavour) = flavours ∧
      (Reconcile env (.found discovery)).created.map (fun pc => pc.Reserved)
        = true :: List.replicate (flavours.length - 1) false ∧
      ((Reconcile env (.found discovery)).created.filter (fun pc => pc.Reserved)).length = 1 ∧
      ∃ d : Discovery,
        (Reconcile env (.found discovery)).statusUpdate = some d ∧
        d.Status.PeeringCandidate
          = { Name := (ForgePeeringCandidate env (flavours.head hne)
                        discovery.Spec.SolverID true).Name,
              Namespace := (ForgePeeringCandidate env (flavours.head hne)
                        discovery.Spec.SolverID true).Namespace } ∧
        d.Status.Phase.Phase = Phase.Solved ∧
        (Reconcile env (.found discovery)).err = env.updateError ∧
        (env.updateError = none → ∀ candidates : List PeeringCandidate,
          (World.reconcile { discovery := discovery, candidates := candidates } env).1
            = { discovery := d,
                candidates := candidates ++ (Reconcile env (.found discovery)).created }) := by
  cases flavours with
  | nil => exact absurd rfl hne
  | cons f rest =>
    have hrun : Reconcile env (.found discovery)
        = updateDiscoveryStatus env
            (ForgePeeringCandidate env f discovery.Spec.SolverID true
              :: rest.map (fun f => ForgePeeringCandidate env f discovery.Spec.SolverID false))
            (Discovery.SetPhase
              { discovery with
                Status := { discovery.Status with
                  PeeringCandidate :=
                    { Name := (ForgePeeringCandidate env f discovery.Spec.SolverID true).Name,
                      Namespace :=
                        (ForgePeeringCandidate env f discovery.Spec.SolverID true).Namespace } } }
              env Phase.Solved "Discovery Solved: Peering Candidate found") := by
      simp [Reconcile, hphase, hflavours, createLoop_first env _ hcreate]
    rw [hrun]
    refine ⟨rfl, by simp [updateDiscoveryStatus], ?_, ?_, ?_, ?_⟩
    · simp [updateDiscoveryStatus, ForgePeeringCandidate, Function.comp_def]
    · simp [updateDiscoveryStatus, ForgePeeringCandidate, Function.comp_def]
    · simp [updateDiscoveryStatus, ForgePeeringCandidate, List.filter_map, Function.comp_def]
    · refine ⟨_, rfl, rfl, rfl, rfl, ?_⟩
      intro hupdate candidates
      simp [World.reconcile, hrun, updateDiscoveryStatus, hupdate, ReconcileResult.stored,
        hcreate]

/-- Witness for C10: the running Discovery of `solver1` with the flavours
`cpu2`, `cpu4`, `zeroCpu` discovered. -/
theorem Reconcile_running_creates_candidates_witness :
    (Reconcile (discoveryEnv [cpu2, cpu4, zeroCpu]) (.found runningDiscovery)).created.map
        (fun pc => (pc.Flavour, pc.Reserved))
      = [(cpu2, true), (cpu4, false), (zeroCpu, false)] ∧
    (Reconcile (discoveryEnv [cpu2, cpu4, zeroCpu]) (.found runningDiscovery)).created.length
      = 3 :=
  ⟨by decide,
    (Reconcile_running_creates_candidates (discoveryEnv [cpu2, cpu4, zeroCpu]) runningDiscovery
      [cpu2, cpu4, zeroCpu] rfl rfl (by simp) (fun _ => rfl)).2.1⟩

/-! ## General forms of the behaviour shown in C1, C2, C8 and C9 -/

/-- In every reserve request that registers a new Transaction, the response
carries the zero value of `Transaction`, whatever was registered. -/
theorem reserveFlavour_fresh_response (g : Gateway) (env : Env) (flavourID : String)
    (request : ReserveRequest) (flavour : Flavour) (id : String)
    (hid : flavourID = request.FlavourID)
    (hnone : g.SearchTransaction request.Buyer.NodeID flavourID = none)
    (hknown : GetFlavourByID env flavourID g.client = some flavour)
    (hmint : env.newTransactionID = some id) :
    reserveFlavour g env flavourID (.ok request)
      = (g.addNewTransacion (ForgeTransactionObj env id request),
          encodeResponse (.transaction default)) := by
  subst hid
  simp [reserveFlavour, hnone, hknown, hmint]

/-- After a purchase that stored a Contract, the registry has no entry with the
purchased transaction ID. -/
theorem purchaseFlavour_created_removes (g : Gateway) (env : Env) (transactionID : String)
    (body : Except String PurchaseRequest)
    (hcreated : (purchaseFlavour g env transactionID body).1.client.Contracts
      ≠ g.client.Contracts) :
    (purchaseFlavour g env transactionID body).1.GetTransaction transactionID = none := by
  cases body with
  | error e => exact absurd rfl hcreated
  | ok purchase =>
    by_cases hid : transactionID = purchase.TransactionID
    swap
    · exact absurd (by simp [purchaseFlavour, hid]) hcreated
    cases hget : g.GetTransaction purchase.TransactionID with
    | none => exact absurd (by simp [purchaseFlavour, hid, hget]) hcreated
    | some transaction =>
      have htid : transaction.TransactionID = transactionID := by
        rw [hid]; exact GetTransaction_id hget
      have hgone : ∀ g' : Gateway,
          g'.Transactions = (g.removeTransaction transaction.TransactionID).Transactions →
          g'.GetTransaction transactionID = none := by
        intro g' hg'
        have h := GetTransaction_removeTransaction g transactionID
        simpa [Gateway.GetTransaction, hg', htid] using h
      by_cases hexp : CheckExpiration env transaction.StartTime env.EXPIRATION_TRANSACTION = true
      · exact absurd (by simp [purchaseFlavour, hid, hget, hexp, Gateway.removeTransaction])
          hcreated
      · cases hlist : g.client.List env purchase.TransactionID with
        | error err =>
          cases err with
          | other => exact absurd (by simp [purchaseFlavour, hid, hget, hexp, hlist]) hcreated
          | notFound =>
            apply hgone
            simp [purchaseFlavour, hid, hget, hexp, hlist, performPurchase_transactions]
        | ok items =>
          cases items with
          | cons contract rest =>
            exact absurd (by simp [purchaseFlavour, hid, hget, hexp, hlist]) hcreated
          | nil =>
            apply hgone
            simp [purchaseFlavour, hid, hget, hexp, hlist, performPurchase_transactions]

/-- After a purchase that stored a Contract, every further purchase of the same
transaction ID, served next, is answered 500 "Error getting the Transaction"
and changes nothing. -/
theorem purchaseFlavour_again_after_created (g : Gateway) (env env' : Env)
    (transactionID : String) (body : Except String PurchaseRequest)
    (hcreated : (purchaseFlavour g env transactionID body).1.client.Contracts
      ≠ g.client.Contracts) :
    purchaseFlavour (purchaseFlavour g env transactionID body).1 env' transactionID
        (.ok { TransactionID := transactionID })
      = ((purchaseFlavour g env transactionID body).1,
          httpError "Error getting the Transaction" StatusInternalServerError) := by
  have h := purchaseFlavour_created_removes g env transactionID body hcreated
  generalize (purchaseFlavour g env transactionID body).1 = g1 at h
  simp [purchaseFlavour, h]

/-! ### The filtering loop when no flavour is available -/

/-- A removal keeps the backing array's length and its last cell, and leaves a
slice shorter than the backing array. -/
theorem removeAt_keeps_last {n i : Nat} {s s' : Slice} {f : Flavour}
    (hlen : s.arr.length = n) (hle : s.len ≤ n) (hlast : s.arr[n - 1]? = some f)
    (h : s.removeAt i = some s') :
    s'.arr.length = n ∧ s'.len < n ∧ s'.arr[n - 1]? = some f := by
  unfold Slice.removeAt at h
  split at h
  · rename_i hi
    cases h
    have h1 : (List.take i s.arr ++ List.take (s.len - (i + 1)) (List.drop (i + 1) s.arr)).length
        = s.len - 1 := by
      simp only [List.length_append, List.length_take, List.length_drop]
      omega
    refine ⟨?_, by simp only; omega, ?_⟩
    · simp only [List.length_append, List.length_take, List.length_drop]
      omega
    · simp only
      rw [List.getElem?_append_right (by omega), h1, List.getElem?_drop, ← hlast]
      congr 1
      omega
  · cases h

/-- Once the slice is shorter than the backing array and the last cell is
unavailable, the remaining iterations end in a panic. -/
theorem filterFrom_panics_of_shrunk {n : Nat} {f : Flavour} (hf : f.Availability = false) :
    ∀ (k i : Nat) (s : Slice), i + (k + 1) = n → s.arr.length = n → s.len < n →
      s.arr[n - 1]? = some f → filterFrom (k + 1) i s = none := by
  intro k
  induction k with
  | zero =>
    intro i s hik hlen hlt hlast
    have hi : n - 1 = i := by omega
    have hrem : s.removeAt i = none := by
      unfold Slice.removeAt
      rw [if_neg (by omega)]
    rw [hi] at hlast
    simp [filterFrom, filterStep, hlast, hf, hrem]
  | succ k ih =>
    intro i s hik hlen hlt hlast
    rw [filterFrom]
    cases hstep : filterStep i s with
    | none => rfl
    | some s' =>
      show filterFrom (k + 1) (i + 1) s' = none
      cases hget : s.arr[i]? with
      | none => simp [filterStep, hget] at hstep
      | some x =>
        simp only [filterStep, hget] at hstep
        by_cases hx : x.Availability = true
        · simp only [hx, Bool.not_true, Bool.false_eq_true, if_false, Option.some.injEq] at hstep
          subst hstep
          exact ih (i + 1) s (by omega) hlen hlt hlast
        · simp only [hx, Bool.not_false, if_true] at hstep
          have h' := removeAt_keeps_last hlen (Nat.le_of_lt hlt) hlast hstep
          exact ih (i + 1) s' (by omega) h'.1 h'.2.1 h'.2.2

/-- On every list of two or more flavours, none of them available, the
availability-filtering loop panics. -/
theorem filterAvailable_panics_of_none_available (flavours : List Flavour)
    (hnone : ∀ f ∈ flavours, f.Availability = false) (hlen : 2 ≤ flavours.length) :
    filterAvailable flavours = none := by
  obtain ⟨k, hk⟩ : ∃ k, flavours.length = k + 2 := ⟨flavours.length - 2, by omega⟩
  obtain ⟨f, hf⟩ : ∃ f, flavours[k + 2 - 1]? = some f :=
    ⟨_, List.getElem?_eq_getElem (by omega)⟩
  obtain ⟨f0, hf0⟩ : ∃ f0, flavours[0]? = some f0 :=
    ⟨_, List.getElem?_eq_getElem (by omega)⟩
  have hf0' : f0.Availability = false := hnone f0 (List.getElem?_mem hf0)
  have hf' : f.Availability = false := hnone f (List.getElem?_mem hf)
  have key : ∀ m, flavours.length = m → m = k + 2 →
      filterFrom m 0 { arr := flavours, len := m } = none := by
    intro m hm hmk
    subst hmk
    rw [filterFrom]
    cases hrem : Slice.removeAt { arr := flavours, len := k + 2 } 0 with
    | none => simp [filterStep, hf0, hf0', hrem]
    | some s' =>
      have h' := removeAt_keeps_last (n := k + 2) (s := { arr := flavours, len := k + 2 })
        hm (Nat.le_refl _) hf hrem
      have := filterFrom_panics_of_shrunk hf' k 1 s' (by omega) h'.1 h'.2.1 h'.2.2
      simp [filterStep, hf0, hf0', hrem, this]
  unfold filterAvailable
  rw [key flavours.length rfl hk]
  rfl

/-- On every list of two or more flavours, none of them available,
`getFlavours` panics instead of answering 404. -/
theorem getFlavours_panics_of_none_available (flavours : List Flavour)
    (hnone : ∀ f ∈ flavours, f.Availability = false) (hlen : 2 ≤ flavours.length) :
    getFlavours (.ok flavours) = none := by
  simp [getFlavours, filterAvailable_panics_of_none_available flavours hnone hlen]

/-! ### The selection loop when no CPU quantity is positive -/

theorem selectLoop_of_no_positive (flavours : List Flavour)
    (h : ∀ f ∈ flavours, f.Cpu ≤ 0) (selected : Flavour) :
    selectLoop flavours (Quantity.zero, selected) = (Quantity.zero, selected) := by
  induction flavours with
  | nil => rfl
  | cons f rest ih =>
    have hf : f.Cpu ≤ 0 := h f (List.mem_cons_self _ _)
    have hcmp : Quantity.Cmp f.Cpu Quantity.zero ≠ 1 := by
      unfold Quantity.Cmp Quantity.zero
      by_cases hlt : f.Cpu < 0
      · simp [hlt]
      · have h0 : f.Cpu = 0 := le_antisymm hf (not_lt.mp hlt)
        simp [h0]
    simp only [selectLoop, hcmp, if_false]
    exact ih (fun x hx => h x (List.mem_cons_of_mem _ hx))

/-- On every list in which no flavour has a positive CPU quantity, the max-CPU
selection loop ends with the zero value of `Flavour` selected. -/
theorem selectMaxCpu_of_no_positive (flavours : List Flavour)
    (h : ∀ f ∈ flavours, f.Cpu ≤ 0) : selectMaxCpu flavours = default := by
  unfold selectMaxCpu
  rw [selectLoop_of_no_positive flavours h]

/-! ## The Discovery reconciler: failure and phase moves (C11, C12) -/

/-- C11: for a Discovery in phase Running, if `DiscoverFlavours` returns
an error or an empty list, one `Reconcile` passes no PeeringCandidate to
`r.Create` and stores none; the Discovery it passes to the status update has
phase Failed and a non-empty message ("Error when getting Flavour", resp. "No
Flavours found"); and when that update succeeds, this Discovery is the stored
one. -/
theorem Reconcile_running_no_flavours_failed (env : ReconcileEnv) (discovery : Discovery)
    (hphase : discovery.Status.Phase.Phase = Phase.Running)
    (hnone : (∃ e, env.DiscoverFlavours discovery.Spec.Selector = .error e) ∨
      env.DiscoverFlavours discovery.Spec.Selector = .ok []) :
    (Reconcile env (.found discovery)).created = [] ∧
      ∃ d : Discovery,
        (Reconcile env (.found discovery)).statusUpdate = some d ∧
        d.Status.Phase.Phase = Phase.Failed ∧
        d.Status.Phase.Message ≠ "" ∧
        (d.Status.Phase.Message = "Error when getting Flavour" ∨
          d.Status.Phase.Message = "No Flavours found") ∧
        ∀ candidates : List PeeringCandidate,
          (World.reconcile { discovery := discovery, candidates := candidates } env).1.candidates
            = candidates ∧
          (env.updateError = none →
            (World.reconcile { discovery := discovery, candidates := candidates } env).1.discovery
              = d) := by
  rcases hnone with ⟨e, he⟩ | hempty
  · have hrun : Reconcile env (.found discovery)
        = updateDiscoveryStatus env []
            (discovery.SetPhase env Phase.Failed "Error when getting Flavour") := by
      simp [Reconcile, hphase, he]
    refine ⟨by rw [hrun]; rfl, _, by rw [hrun]; rfl, rfl,
      (by show "Error when getting Flavour" ≠ ""; decide), Or.inl rfl, ?_⟩
    intro candidates
    constructor
    · simp [World.reconcile, hrun, updateDiscoveryStatus, ReconcileResult.stored]
    · intro hupdate
      simp [World.reconcile, hrun, updateDiscoveryStatus, hupdate]
  · have hrun : Reconcile env (.found discovery)
        = updateDiscoveryStatus env []
            (discovery.SetPhase env Phase.Failed "No Flavours found") := by
      simp [Reconcile, hphase, hempty]
    refine ⟨by rw [hrun]; rfl, _, by rw [hrun]; rfl, rfl,
      (by show "No Flavours found" ≠ ""; decide), Or.inr rfl, ?_⟩
    intro candidates
    constructor
    · simp [World.reconcile, hrun, updateDiscoveryStatus, ReconcileResult.stored]
    · intro hupdate
      simp [World.reconcile, hrun, updateDiscoveryStatus, hupdate]

/-- Witness for C11: the running Discovery of `solver1` when `DiscoverFlavours`
fails. -/
theorem Reconcile_running_no_flavours_failed_witness :
    runningDiscovery.Status.Phase.Phase = Phase.Running ∧
      (Reconcile discoveryEnvFailing (.found runningDiscovery)).created = [] ∧
      (Reconcile discoveryEnvFailing (.found runningDiscovery)).statusUpdate
        = some (runningDiscovery.SetPhase discoveryEnvFailing Phase.Failed
            "Error when getting Flavour") :=
  ⟨rfl,
    (Reconcile_running_no_flavours_failed discoveryEnvFailing runningDiscovery rfl
      (Or.inl ⟨"no seller reachable", rfl⟩)).1,
    by decide⟩

/-- A `Reconcile` of a Discovery whose phase is Idle, Solved, Failed or Timeout
does nothing. -/
theorem Reconcile_settled_noop (env : ReconcileEnv) (discovery : Discovery)
    (hphase : discovery.Status.Phase.Phase = Phase.Solved ∨
      discovery.Status.Phase.Phase = Phase.Failed ∨
      discovery.Status.Phase.Phase = Phase.Timeout ∨
      discovery.Status.Phase.Phase = Phase.Idle) :
    Reconcile env (.found discovery) = { created := [], statusUpdate := none, err := none } := by
  rcases hphase with h | h | h | h <;> simp [Reconcile, h]

/-- C12: in one `Reconcile` step the stored phase is unchanged or makes one of
the moves unset → Running, Running → Solved, Running → Failed; and a Discovery
whose phase is Solved, Failed, Timeout or Idle is left as it is: no status
update is issued, no PeeringCandidate is passed to `r.Create`, and the store is
unchanged. -/
theorem Reconcile_phase_moves_forward (w : World) (env : ReconcileEnv) :
    ((w.reconcile env).1.discovery.Status.Phase.Phase = w.discovery.Status.Phase.Phase ∨
        (w.discovery.Status.Phase.Phase = Phase.unset ∧
          (w.reconcile env).1.discovery.Status.Phase.Phase = Phase.Running) ∨
        (w.discovery.Status.Phase.Phase = Phase.Running ∧
          (w.reconcile env).1.discovery.Status.Phase.Phase = Phase.Solved) ∨
        (w.discovery.Status.Phase.Phase = Phase.Running ∧
          (w.reconcile env).1.discovery.Status.Phase.Phase = Phase.Failed)) ∧
      ((w.discovery.Status.Phase.Phase = Phase.Solved ∨
          w.discovery.Status.Phase.Phase = Phase.Failed ∨
          w.discovery.Status.Phase.Phase = Phase.Timeout ∨
          w.discovery.Status.Phase.Phase = Phase.Idle) →
        (w.reconcile env).2.statusUpdate = none ∧
        (w.reconcile env).2.created = [] ∧
        (w.reconcile env).2.err = none ∧
        (w.reconcile env).1 = w) := by
  obtain ⟨d, candidates⟩ := w
  constructor
  · cases hp : d.Status.Phase.Phase with
    | unset =>
      cases hu : env.updateError with
      | none =>
        right; left
        simp [World.reconcile, Reconcile, hp, updateDiscoveryStatus, hu, Discovery.SetPhase]
      | some e =>
        left
        simp [World.reconcile, Reconcile, hp, updateDiscoveryStatus, hu]
    | Idle => left; simp [World.reconcile, Reconcile, hp]
    | Solved => left; simp [World.reconcile, Reconcile, hp]
    | Failed => left; simp [World.reconcile, Reconcile, hp]
    | Timeout => left; simp [World.reconcile, Reconcile, hp]
    | Running =>
      cases hu : env.updateError with
      | some e =>
        left
        have : ∀ r : ReconcileResult,
            (match r.statusUpdate, (some e : Option String) with
              | some d', none => d'
              | _, _ => d) = d := by
          intro r
          cases r.statusUpdate <;> rfl
        simp [World.reconcile, hu, this, hp]
      | none =>
        cases hd : env.DiscoverFlavours d.Spec.Selector with
        | error e =>
          right; right; right
          simp [World.reconcile, Reconcile, hp, hd, updateDiscoveryStatus, hu,
            Discovery.SetPhase]
        | ok flavours =>
          cases flavours with
          | nil =>
            right; right; right
            simp [World.reconcile, Reconcile, hp, hd, updateDiscoveryStatus, hu,
              Discovery.SetPhase]
          | cons f rest =>
            cases hl : (createLoop env d.Spec.SolverID (f :: rest)
                { first := true, peeringCandidateReserved := default, created := [] }).2 with
            | some e =>
              left
              simp [World.reconcile, Reconcile, hp, hd, hl, hu]
            | none =>
              right; right; left
              simp [World.reconcile, Reconcile, hp, hd, hl, updateDiscoveryStatus, hu,
                Discovery.SetPhase]
  · intro hsettled
    have hrun := Reconcile_settled_noop env d hsettled
    simp [World.reconcile, hrun, ReconcileResult.stored]

/-- Witness for C12: the solved Discovery of `solver1` is left as it is, even
when flavours are discovered. -/
theorem Reconcile_phase_moves_forward_witness :
    solvedDiscovery.Status.Phase.Phase = Phase.Solved ∧
      (World.reconcile { discovery := solvedDiscovery, candidates := [] }
          (discoveryEnv [cpu2])).2.created = [] ∧
      (World.reconcile { discovery := solvedDiscovery, candidates := [] }
          (discoveryEnv [cpu2])).1 = { discovery := solvedDiscovery, candidates := [] } :=
  have h := (Reconcile_phase_moves_forward { discovery := solvedDiscovery, candidates := [] }
    (discoveryEnv [cpu2])).2 (Or.inl rfl)
  ⟨rfl, h.2.1, h.2.2.2⟩

/-! ## The Transaction is consumed by the purchase (C13) -/

/-- The four ways `performPurchase` ends: 500 at the flavour lookup, at the
credential retrieval or at the Contract creation, with the store as it was, or
200 with the Contract it stored. -/
theorem performPurchase_outcome (g : Gateway) (env : Env) (transaction : Transaction) :
    ((performPurchase g env transaction).1.client = g.client ∧
        ((performPurchase g env transaction).2
            = httpError "Error getting the Flavour by ID" StatusInternalServerError ∨
          (performPurchase g env transaction).2
            = httpError "Error getting Liqo Credentials" StatusInternalServerError ∨
          ∃ e, (performPurchase g env transaction).2
            = httpError ("Error creating the Contract: " ++ e) StatusInternalServerError)) ∨
      ∃ c, (performPurchase g env transaction).1.client.Contracts = g.client.Contracts ++ [c] ∧
        (performPurchase g env transaction).2 = encodeResponse (.purchase c) := by
  have hclient : (g.removeTransaction transaction.TransactionID).client = g.client := rfl
  cases hf : GetFlavourByID env transaction.FlavourID g.client with
  | none =>
    left
    simp [performPurchase, hclient, hf, Gateway.removeTransaction]
  | some flavourSold =>
    cases hc : env.liqoCredentials with
    | none =>
      left
      simp [performPurchase, hclient, hf, hc, Gateway.removeTransaction]
    | some liqoCredentials =>
      cases he : env.createError with
      | some e =>
        left
        refine ⟨?_, Or.inr (Or.inr ⟨e, ?_⟩)⟩
        · simp [performPurchase, hclient, hf, hc, he, Gateway.removeTransaction]
        · simp [performPurchase, hclient, hf, hc, he]
      | none =>
        right
        refine ⟨ForgeContract env flavourSold transaction liqoCredentials, ?_, ?_⟩
        · simp [performPurchase, hclient, hf, hc, he, Gateway.removeTransaction, Cluster.Create]
        · simp [performPurchase, hclient, hf, hc, he]

/-- C13: a purchase request whose URL and body transaction IDs agree,
whose Transaction is in the registry and has not expired, and for which the
store lists no Contract (and the listing does not fail), leaves a registry
without any entry for that transaction ID, whatever the outcome of the flavour
lookup, of the credential retrieval and of the Contract creation: the registry
is the old one less the entries of that ID, and the handler either answered
500 at one of those three steps, storing nothing, or answered 200 with the
Contract it stored. -/
theorem purchaseFlavour_consumes_transaction (g : Gateway) (env : Env)
    (transactionID : String) (purchase : PurchaseRequest) (transaction : Transaction)
    (hid : transactionID = purchase.TransactionID)
    (hget : g.GetTransaction purchase.TransactionID = some transaction)
    (hexp : CheckExpiration env transaction.StartTime env.EXPIRATION_TRANSACTION = false)
    (hlist : g.client.List env purchase.TransactionID = .ok [] ∨
      g.client.List env purchase.TransactionID = .error .notFound) :
    (purchaseFlavour g env transactionID (.ok purchase)).1.GetTransaction
          purchase.TransactionID = none ∧
      (∀ t ∈ (purchaseFlavour g env transactionID (.ok purchase)).1.Transactions,
          t.TransactionID ≠ purchase.TransactionID) ∧
      transaction ∉ (purchaseFlavour g env transactionID (.ok purchase)).1.Transactions ∧
      (purchaseFlavour g env transactionID (.ok purchase)).1.Transactions
        = g.Transactions.filter (fun t => t.TransactionID != purchase.TransactionID) ∧
      (((purchaseFlavour g env transactionID (.ok purchase)).1.client = g.client ∧
          ((purchaseFlavour g env transactionID (.ok purchase)).2
              = httpError "Error getting the Flavour by ID" StatusInternalServerError ∨
            (purchaseFlavour g env transactionID (.ok purchase)).2
              = httpError "Error getting Liqo Credentials" StatusInternalServerError ∨
            ∃ e, (purchaseFlavour g env transactionID (.ok purchase)).2
              = httpError ("Error creating the Contract: " ++ e) StatusInternalServerError)) ∨
        ∃ c, (purchaseFlavour g env transactionID (.ok purchase)).1.client.Contracts
              = g.client.Contracts ++ [c] ∧
          (purchaseFlavour g env transactionID (.ok purchase)).2
            = encodeResponse (.purchase c)) := by
  have htid : transaction.TransactionID = purchase.TransactionID := GetTransaction_id hget
  have hrun : purchaseFlavour g env transactionID (.ok purchase)
      = performPurchase g env transaction := by
    rcases hlist with h | h <;> simp [purchaseFlavour, hid, hget, hexp, h]
  have htrans : (performPurchase g env transaction).1.Transactions
      = g.Transactions.filter (fun t => t.TransactionID != purchase.TransactionID) := by
    rw [performPurchase_transactions, htid]
    rfl
  have hall : ∀ t ∈ (performPurchase g env transaction).1.Transactions,
      t.TransactionID ≠ purchase.TransactionID := by
    intro t ht
    rw [htrans] at ht
    have h := (List.mem_filter.mp ht).2
    simpa using h
  rw [hrun]
  refine ⟨?_, hall, fun hmem => hall transaction hmem htid, htrans,
    performPurchase_outcome g env transaction⟩
  simp only [Gateway.GetTransaction, htrans]
  exact find?_filter_ne_none g.Transactions purchase.TransactionID

/-- Witness for C13: the purchase of `tx-1` at 120 when the Contract creation
is refused. -/
theorem purchaseFlavour_consumes_transaction_witness :
    sellerWithT1.GetTransaction "tx-1" = some transaction1 ∧
      (purchaseFlavour sellerWithT1 envCreateRefused
          "tx-1" (.ok { TransactionID := "tx-1" })).1.Transactions = [] ∧
      (purchaseFlavour sellerWithT1 envCreateRefused
          "tx-1" (.ok { TransactionID := "tx-1" })).2
        = httpError "Error creating the Contract: refused" 500 :=
  have h := purchaseFlavour_consumes_transaction sellerWithT1 envCreateRefused "tx-1"
    { TransactionID := "tx-1" }
    transaction1 rfl (by decide) (by decide) (Or.inl rfl)
  ⟨by decide, h.2.2.2.1.trans (by decide), by decide⟩

/-! ## Replayed reconciliation (C14) -/

/-- C14: the running Discovery of `solver1` is reconciled twice while
`DiscoverFlavours` keeps returning `cpu2`, `cpu4`. In the first `Reconcile` the
second Create fails, so the phase stays Running; the second `Reconcile` passes
the PeeringCandidate of `cpu2` to `r.Create` again: over the two calls a
creation is issued twice for `cpu2` (and twice for `cpu4`). -/
theorem reconcileAll_recreates_candidates :
    (World.reconcile { discovery := runningDiscovery, candidates := [] }
        (discoveryEnvSecondCreateFails [cpu2, cpu4])).1.discovery.Status.Phase.Phase
        = Phase.Running ∧
      (World.reconcileAll { discovery := runningDiscovery, candidates := [] }
          [discoveryEnvSecondCreateFails [cpu2, cpu4], discoveryEnv [cpu2, cpu4]]).2.map
          (fun pc => pc.Flavour)
        = [cpu2, cpu4, cpu2, cpu4] ∧
      ((World.reconcileAll { discovery := runningDiscovery, candidates := [] }
          [discoveryEnvSecondCreateFails [cpu2, cpu4], discoveryEnv [cpu2, cpu4]]).2.filter
          (fun pc => pc.Flavour == cpu2)).length = 2 := by
  decide

/-! ## The max-CPU selection loop on positive quantities (C16) -/

theorem Cmp_eq_one_iff (q y : Int) : Quantity.Cmp q y = 1 ↔ y < q := by
  unfold Quantity.Cmp
  split_ifs with h1 h2
  · have h1' : q < y := h1
    constructor
    · intro h; exact absurd h (by decide)
    · intro h; omega
  · have h2' : q = y := h2
    constructor
    · intro h; exact absurd h (by decide)
    · intro h; omega
  · have h1' : ¬ q < y := h1
    have h2' : ¬ q = y := h2
    constructor
    · intro _; omega
    · intro _; rfl

/-- The selection loop from any state: either no flavour exceeds `max` and the
state is unchanged, or the selected flavour splits the list into strictly
smaller flavours before it and flavours that do not exceed it after it. -/
theorem selectLoop_spec (flavours : List Flavour) (max : Quantity) (selected : Flavour) :
    ((∀ g ∈ flavours, g.Cpu ≤ max) ∧ selectLoop flavours (max, selected) = (max, selected)) ∨
      ∃ pre post,
        flavours = pre ++ (selectLoop flavours (max, selected)).2 :: post ∧
        (selectLoop flavours (max, selected)).1 = (selectLoop flavours (max, selected)).2.Cpu ∧
        max < (selectLoop flavours (max, selected)).2.Cpu ∧
        (∀ g ∈ pre, g.Cpu < (selectLoop flavours (max, selected)).2.Cpu) ∧
        (∀ g ∈ post, g.Cpu ≤ (selectLoop flavours (max, selected)).2.Cpu) := by
  induction flavours generalizing max selected with
  | nil => left; exact ⟨by simp, rfl⟩
  | cons f rest ih =>
    by_cases hcmp : Quantity.Cmp f.Cpu max = 1
    · have hlt : max < f.Cpu := (Cmp_eq_one_iff _ _).mp hcmp
      have hstep : selectLoop (f :: rest) (max, selected) = selectLoop rest (f.Cpu, f) := by
        simp [selectLoop, hcmp]
      right
      rw [hstep]
      rcases ih f.Cpu f with ⟨hall, hsame⟩ | ⟨pre, post, hsplit, hmax, hgt, hpre, hpost⟩
      · rw [hsame]
        exact ⟨[], rest, rfl, rfl, hlt, by simp, hall⟩
      · refine ⟨f :: pre, post, by rw [List.cons_append, ← hsplit], hmax, lt_trans hlt hgt, ?_,
          hpost⟩
        intro g hg
        rcases List.mem_cons.mp hg with rfl | hg
        · exact hgt
        · exact hpre g hg
    · have hle : f.Cpu ≤ max := not_lt.mp (fun h => hcmp ((Cmp_eq_one_iff _ _).mpr h))
      have hstep : selectLoop (f :: rest) (max, selected) = selectLoop rest (max, selected) := by
        simp [selectLoop, hcmp]
      rw [hstep]
      rcases ih max selected with ⟨hall, hsame⟩ | ⟨pre, post, hsplit, hmax, hgt, hpre, hpost⟩
      · left
        refine ⟨?_, hsame⟩
        intro g hg
        rcases List.mem_cons.mp hg with rfl | hg
        · exact hle
        · exact hall g hg
      · right
        refine ⟨f :: pre, post, by rw [List.cons_append, ← hsplit], hmax, hgt, ?_, hpost⟩
        intro g hg
        rcases List.mem_cons.mp hg with rfl | hg
        · exact lt_of_le_of_lt hle hgt
        · exact hpre g hg

/-- C16: on every list in which some flavour has a CPU quantity greater
than zero, the max-CPU selection loop selects the first flavour, in iteration
order, among those with the greatest CPU quantity: the selected flavour is in
the list, every flavour before it has a strictly smaller CPU quantity, and no
flavour after it has a greater one, so a later flavour with an equal CPU
quantity does not replace it. -/
theorem selectMaxCpu_first_of_greatest (flavours : List Flavour)
    (hpos : ∃ f ∈ flavours, 0 < f.Cpu) :
    ∃ pre post,
      flavours = pre ++ selectMaxCpu flavours :: post ∧
      (∀ g ∈ pre, g.Cpu < (selectMaxCpu flavours).Cpu) ∧
      (∀ g ∈ post, g.Cpu ≤ (selectMaxCpu flavours).Cpu) ∧
      (∀ g ∈ flavours, g.Cpu ≤ (selectMaxCpu flavours).Cpu) ∧
      flavours.find? (fun f => flavours.all (fun g => decide (g.Cpu ≤ f.Cpu)))
        = some (selectMaxCpu flavours) := by
  unfold selectMaxCpu
  rcases selectLoop_spec flavours Quantity.zero default with
    ⟨hall, _⟩ | ⟨pre, post, hsplit, _, _, hpre, hpost⟩
  · obtain ⟨f, hf, hfpos⟩ := hpos
    exact absurd (hall f hf) (not_le.mpr hfpos)
  · generalize (selectLoop flavours (Quantity.zero, default)).2 = sel at hsplit hpre hpost
    have hallle : ∀ g ∈ flavours, g.Cpu ≤ sel.Cpu := by
      intro g hg
      rw [hsplit] at hg
      rcases List.mem_append.mp hg with h | h
      · exact le_of_lt (hpre g h)
      · rcases List.mem_cons.mp h with rfl | h
        · exact le_refl _
        · exact hpost g h
    refine ⟨pre, post, hsplit, hpre, hpost, hallle, ?_⟩
    have hsel : flavours.all (fun g => decide (g.Cpu ≤ sel.Cpu)) = true := by
      rw [List.all_eq_true]
      intro g hg
      exact decide_eq_true (hallle g hg)
    have hnot : ∀ g ∈ pre, ¬ (flavours.all (fun x => decide (x.Cpu ≤ g.Cpu)) = true) := by
      intro g hg hall
      rw [List.all_eq_true] at hall
      have hsel_mem : sel ∈ flavours := by rw [hsplit]; simp
      have := of_decide_eq_true (hall sel hsel_mem)
      exact absurd (hpre g hg) (not_lt.mpr this)
    generalize hp : (fun f : Flavour => flavours.all (fun g => decide (g.Cpu ≤ f.Cpu))) = p
      at hsel hnot
    have hsel' : p sel = true := by rw [← hp]; exact hsel
    have hnot' : ∀ g ∈ pre, ¬ (p g = true) := by
      intro g hg; rw [← hp]; exact hnot g hg
    rw [hsplit, List.find?_append]
    have hnone : pre.find? p = none := by
      rw [List.find?_eq_none]
      exact hnot'
    rw [hnone]
    simp [List.find?_cons, hsel']

/-- Witness for C16: among `cpu2`, `cpu4`, `flavourX` (CPU 4), `zeroCpu`, the
selected flavour is `cpu4`, the first of the two with CPU 4. -/
theorem selectMaxCpu_first_of_greatest_witness :
    (∃ f ∈ [cpu2, cpu4, flavourX, zeroCpu], 0 < f.Cpu) ∧
      selectMaxCpu [cpu2, cpu4, flavourX, zeroCpu] = cpu4 ∧
      [cpu2, cpu4, flavourX, zeroCpu].find?
          (fun f => [cpu2, cpu4, flavourX, zeroCpu].all (fun g => decide (g.Cpu ≤ f.Cpu)))
        = some (selectMaxCpu [cpu2, cpu4, flavourX, zeroCpu]) :=
  have hpos : ∃ f ∈ [cpu2, cpu4, flavourX, zeroCpu], 0 < f.Cpu :=
    ⟨cpu2, by simp, by decide⟩
  ⟨hpos, by decide,
    match selectMaxCpu_first_of_greatest [cpu2, cpu4, flavourX, zeroCpu] hpos with
    | ⟨_, _, _, _, _, _, hfind⟩ => hfind⟩

/-! ## The availability-filtering loop with at most one unavailable flavour (C17) -/

/-- Iterations over cells that all hold available flavours leave the slice as
it is. -/
theorem filterFrom_available (k : Nat) : ∀ (i : Nat) (s : Slice),
    (∀ j, i ≤ j → j < i + k → ∃ f, s.arr[j]? = some f ∧ f.Availability = true) →
    filterFrom k i s = some s := by
  induction k with
  | zero => intro i s _; rfl
  | succ k ih =>
    intro i s h
    obtain ⟨f, hf, hav⟩ := h i (Nat.le_refl _) (by omega)
    have hstep : filterStep i s = some s := by simp [filterStep, hf, hav]
    rw [filterFrom, hstep]
    exact ih (i + 1) s (fun j h1 h2 => h j (by omega) (by omega))

/-- The iterations of the loop can be run in two parts. -/
theorem filterFrom_add (a b : Nat) : ∀ (i : Nat) (s : Slice),
    filterFrom (a + b) i s = (filterFrom a i s).bind (filterFrom b (i + a)) := by
  induction a with
  | zero => intro i s; simp [filterFrom]
  | succ a ih =>
    intro i s
    have hab : a + 1 + b = (a + b) + 1 := by omega
    rw [hab, filterFrom, filterFrom]
    cases filterStep i s with
    | none => rfl
    | some s' =>
      have hi : i + (a + 1) = i + 1 + a := by omega
      simp only [Option.some_bind, hi]
      exact ih (i + 1) s'

/-- A list with at most one unavailable flavour has none, or is one unavailable
flavour between two runs of available ones. -/
theorem at_most_one_unavailable (flavours : List Flavour)
    (h : (flavours.filter (fun f => !f.Availability)).length ≤ 1) :
    (∀ f ∈ flavours, f.Availability = true) ∨
      ∃ pre u post, flavours = pre ++ u :: post ∧ u.Availability = false ∧
        (∀ f ∈ pre, f.Availability = true) ∧ (∀ f ∈ post, f.Availability = true) := by
  induction flavours with
  | nil => left; simp
  | cons f rest ih =>
    by_cases hf : f.Availability = true
    · have hrest : (rest.filter (fun f => !f.Availability)).length ≤ 1 := by
        simpa [List.filter_cons, hf] using h
      rcases ih hrest with hall | ⟨pre, u, post, hsplit, hu, hpre, hpost⟩
      · left
        intro g hg
        rcases List.mem_cons.mp hg with rfl | hg
        · exact hf
        · exact hall g hg
      · right
        refine ⟨f :: pre, u, post, by rw [hsplit]; rfl, hu, ?_, hpost⟩
        intro g hg
        rcases List.mem_cons.mp hg with rfl | hg
        · exact hf
        · exact hpre g hg
    · have hf' : f.Availability = false := by simpa using hf
      have hrest : rest.filter (fun f => !f.Availability) = [] := by
        have : (rest.filter (fun f => !f.Availability)).length = 0 := by
          simp [List.filter_cons, hf'] at h
          simpa using h
        exact List.length_eq_zero.mp this
      right
      refine ⟨[], f, rest, rfl, hf', by simp, ?_⟩
      intro g hg
      have := List.filter_eq_nil_iff.mp hrest g hg
      simpa using this

theorem filter_available_of_all {l : List Flavour} (h : ∀ f ∈ l, f.Availability = true) :
    l.filter (fun f => f.Availability) = l :=
  List.filter_eq_self.mpr h

/-- C17: on every list with at most one unavailable flavour the
availability-filtering loop does not panic (no slice expression is out of
range) and ends with exactly the available flavours of the list, in their
original order. -/
theorem filterAvailable_of_at_most_one_unavailable (flavours : List Flavour)
    (h : (flavours.filter (fun f => !f.Availability)).length ≤ 1) :
    filterAvailable flavours = some (flavours.filter (fun f => f.Availability)) := by
  rcases at_most_one_unavailable flavours h with hall | ⟨pre, u, post, hsplit, hu, hpre, hpost⟩
  · unfold filterAvailable
    rw [filterFrom_available, filter_available_of_all hall]
    · simp [Slice.toList]
    · intro j _ hj
      have hj' : j < flavours.length := by omega
      exact ⟨flavours[j], List.getElem?_eq_getElem hj', hall _ (List.getElem_mem _)⟩
  · subst hsplit
    have hfilter : (pre ++ u :: post).filter (fun f => f.Availability) = pre ++ post := by
      rw [List.filter_append, List.filter_cons, filter_available_of_all hpre,
        filter_available_of_all hpost]
      simp [hu]
    have hlen : (pre ++ u :: post).length = pre.length + (1 + post.length) := by
      simp; omega
    unfold filterAvailable
    rw [hfilter, hlen, filterFrom_add]
    -- the iterations before the unavailable flavour
    rw [filterFrom_available pre.length 0]
    swap
    · intro j _ hj
      have hj' : j < pre.length := by omega
      refine ⟨pre[j], ?_, hpre _ (List.getElem_mem _)⟩
      simp [List.getElem?_append_left hj', List.getElem?_eq_getElem hj']
    -- the iteration that removes it
    simp only [Option.some_bind, Nat.zero_add]
    have hadd : 1 + post.length = post.length + 1 := by omega
    rw [hadd, filterFrom]
    have hread : (pre ++ u :: post)[pre.length]? = some u := by
      rw [List.getElem?_append_right (Nat.le_refl _)]
      simp
    have hstep : filterStep pre.length
        { arr := pre ++ u :: post, len := pre.length + (post.length + 1) }
        = some { arr := pre ++ post ++ (u :: post).drop post.length,
                 len := pre.length + post.length } := by
      simp only [filterStep, hread, hu, Bool.not_false, if_true, Slice.removeAt]
      rw [if_pos (by omega)]
      have h1 : pre.length + (post.length + 1) - (pre.length + 1) = post.length := by omega
      have h2 : pre.length + (post.length + 1) - 1 = pre.length + post.length := by omega
      simp [h1, h2, List.drop_append]
    rw [hstep]
    simp only [Option.some_bind]
    -- the iterations after it
    rw [filterFrom_available]
    · simp [Slice.toList, List.take_append]
    · intro j hj1 hj2
      cases post with
      | nil => simp at hj2; omega
      | cons q qs =>
        have hdrop : (u :: q :: qs).drop (q :: qs).length = (q :: qs).drop qs.length := by
          simp
        have hall : ∀ f ∈ pre ++ (q :: qs) ++ (q :: qs).drop qs.length,
            f.Availability = true := by
          intro f hf
          rcases List.mem_append.mp hf with hf | hf
          · rcases List.mem_append.mp hf with hf | hf
            · exact hpre f hf
            · exact hpost f hf
          · exact hpost f (List.mem_of_mem_drop hf)
        have hjlt : j < (pre ++ (q :: qs) ++ (q :: qs).drop qs.length).length := by
          simp at hj2 ⊢
          omega
        simp only [hdrop]
        exact ⟨_, List.getElem?_eq_getElem hjlt, hall _ (List.getElem_mem _)⟩

/-- Witness for C17: `unavailable1` between available flavours. -/
theorem filterAvailable_of_at_most_one_unavailable_witness :
    ([cpu2, unavailable1, cpu4, zeroCpu].filter (fun f => !f.Availability)).length ≤ 1 ∧
      filterAvailable [cpu2, unavailable1, cpu4, zeroCpu] = some [cpu2, cpu4, zeroCpu] :=
  ⟨by decide,
    (filterAvailable_of_at_most_one_unavailable [cpu2, unavailable1, cpu4, zeroCpu]
      (by decide)).trans (by decide)⟩

end Fluidos
